import Mathlib

/-!
Verification development for the `aira` research-agent repository.

Shallow embedding of the agentic control layer:
* `src/app/agent/react.py` - the ReAct reasoning/acting loop and its
  three-tier JSON extraction;
* `src/app/agent/reflection.py` - the reflection gate;
* `src/app/agent/orchestrator.py` - the retry orchestrator;
* `src/app/tools/registry.py` - the tool registry dispatch;
* `src/app/storage/monitor_state.py` - the monitor state store;
* `src/app/scheduler/tasks.py` - the monitoring task.

Python dynamic values flowing through these functions are modelled by the
inductive type `Json`; Python exceptions are modelled with `Except String`;
Python float values are modelled by `Rat` (non-finite floats are outside the
model).  Wall-clock datetimes are modelled as rationals (hours).
-/

namespace Aira

/-- A Python/JSON dynamic value.  Numbers are modelled as rationals (Python
ints and floats are not distinguished; non-finite floats are outside the
model). -/
inductive Json where
  | null
  | bool (b : Bool)
  | num (q : Rat)
  | str (s : String)
  | arr (elems : List Json)
  | obj (fields : List (String × Json))
  deriving Repr, Inhabited

/-- Python truthiness of a dynamic value (`if not parsed: ...`). -/
def Json.truthy : Json → Bool
  | .null => false
  | .bool b => b
  | .num q => q != 0
  | .str s => s != ""
  | .arr xs => !xs.isEmpty
  | .obj fs => !fs.isEmpty

/-- `dict.get(key)` on the field list of a JSON object (keys are unique:
the parser overwrites duplicate keys as `json.loads` does). -/
def objGet : List (String × Json) → String → Option Json
  | [], _ => none
  | (k, v) :: rest, key => if k = key then some v else objGet rest key

/-- The opening-brace character, written numerically. -/
def braceOpen : Char := Char.ofNat 123

/-- The closing-brace character, written numerically. -/
def braceClose : Char := Char.ofNat 125

/-- The backtick character, written numerically. -/
def btick : Char := Char.ofNat 96

/-- JSON whitespace accepted by `json.loads` between tokens. -/
def isJsonWs (c : Char) : Bool := c = ' ' || c = '\t' || c = '\n' || c = '\r'

/-- Whitespace stripped by Python `str.strip()` (ASCII fragment). -/
def isPyWs (c : Char) : Bool :=
  c = ' ' || c = '\t' || c = '\n' || c = '\r' || c = Char.ofNat 11 || c = Char.ofNat 12

/-- Characters matched by the regex class `\s` (ASCII fragment). -/
def isRegexWs (c : Char) : Bool := isPyWs c

/-- Python `str.strip()` (ASCII whitespace fragment). -/
def pyStrip (s : String) : String :=
  String.mk (((s.data.dropWhile isPyWs).reverse.dropWhile isPyWs).reverse)

/-- Decimal digits to a natural number. -/
def digitsToNat (ds : List Char) : Nat :=
  ds.foldl (fun a c => a * 10 + (c.toNat - 48)) 0

/-- Rational value of a parsed JSON number
`sign * mantissaDigits * 10 ^ (exp - fracLen)` (built with `mkRat` so that
concrete values reduce). -/
def numValue (neg : Bool) (mantissa : Nat) (fracLen : Nat) (exp : Int) : Rat :=
  let sign : Int := if neg then -1 else 1
  let e : Int := exp - (fracLen : Int)
  if 0 ≤ e then mkRat (sign * (mantissa : Int) * (((10 : Nat) ^ e.toNat : Nat) : Int)) 1
  else mkRat (sign * (mantissa : Int)) ((10 : Nat) ^ (-e).toNat)

/-- Parse the digits of a JSON number after the optional sign.  Returns the
value and the remaining characters, enforcing the no-leading-zero rule of
the JSON grammar (`json.loads` rejects `01`). -/
def parseNumTail (neg : Bool) (cs : List Char) : Option (Json × List Char) :=
  let intPart := cs.takeWhile Char.isDigit
  let rest0 := cs.dropWhile Char.isDigit
  if intPart.isEmpty then none
  else if intPart.length > 1 && intPart.headD '0' = '0' then none
  else
    let (fracPart, rest1) :=
      match rest0 with
      | '.' :: r =>
        (r.takeWhile Char.isDigit, r.dropWhile Char.isDigit)
      | _ => ([], rest0)
    if (match rest0 with | '.' :: _ => fracPart.isEmpty | _ => false) then none
    else
      let mantissa := digitsToNat (intPart ++ fracPart)
      match rest1 with
      | 'e' :: r | 'E' :: r =>
        let (eneg, r1) :=
          match r with
          | '-' :: rr => (true, rr)
          | '+' :: rr => (false, rr)
          | _ => (false, r)
        let eDigits := r1.takeWhile Char.isDigit
        let r2 := r1.dropWhile Char.isDigit
        if eDigits.isEmpty then none
        else
          let e : Int := (if eneg then -1 else 1) * (digitsToNat eDigits : Int)
          some (.num (numValue neg mantissa fracPart.length e), r2)
      | _ => some (.num (numValue neg mantissa fracPart.length 0), rest1)

/-- Hex digit value. -/
def hexVal (c : Char) : Option Nat :=
  if c.isDigit then some (c.toNat - 48)
  else if 'a' ≤ c && c ≤ 'f' then some (c.toNat - 97 + 10)
  else if 'A' ≤ c && c ≤ 'F' then some (c.toNat - 65 + 10)
  else none

mutual

/-- Recursive-descent parser for a JSON value (the core of `json.loads`).
Fuel bounds the recursion; `loads` supplies enough fuel for any input. -/
def parseValue : Nat → List Char → Option (Json × List Char)
  | 0, _ => none
  | fuel + 1, cs =>
    match cs.dropWhile isJsonWs with
    | 'n' :: 'u' :: 'l' :: 'l' :: rest => some (.null, rest)
    | 't' :: 'r' :: 'u' :: 'e' :: rest => some (.bool true, rest)
    | 'f' :: 'a' :: 'l' :: 's' :: 'e' :: rest => some (.bool false, rest)
    | '\"' :: rest =>
      match parseStr fuel rest [] with
      | some (s, r) => some (.str s, r)
      | none => none
    | '[' :: rest =>
      (match (rest.dropWhile isJsonWs) with
       | ']' :: r2 => some (.arr [], r2)
       | _ => parseArrElems fuel rest [])
    | '-' :: rest => parseNumTail true rest
    | c :: rest =>
      if c = braceOpen then
        match (rest.dropWhile isJsonWs) with
        | c2 :: r2 =>
          if c2 = braceClose then some (.obj [], r2)
          else parseObjFields fuel rest []
        | [] => none
      else if c.isDigit then parseNumTail false (c :: rest)
      else none
    | [] => none

/-- Parse the body of a JSON string after the opening quote. -/
def parseStr : Nat → List Char → List Char → Option (String × List Char)
  | 0, _, _ => none
  | _ + 1, [], _ => none
  | fuel + 1, c :: rest, acc =>
    if c = '\"' then some (String.mk acc.reverse, rest)
    else if c = '\\' then
      match rest with
      | '\"' :: r => parseStr fuel r ('\"' :: acc)
      | '\\' :: r => parseStr fuel r ('\\' :: acc)
      | '/' :: r => parseStr fuel r ('/' :: acc)
      | 'n' :: r => parseStr fuel r ('\n' :: acc)
      | 't' :: r => parseStr fuel r ('\t' :: acc)
      | 'r' :: r => parseStr fuel r ('\r' :: acc)
      | 'b' :: r => parseStr fuel r (Char.ofNat 8 :: acc)
      | 'f' :: r => parseStr fuel r (Char.ofNat 12 :: acc)
      | 'u' :: h1 :: h2 :: h3 :: h4 :: r =>
        match hexVal h1, hexVal h2, hexVal h3, hexVal h4 with
        | some a, some b, some c3, some d =>
          parseStr fuel r (Char.ofNat (a * 4096 + b * 256 + c3 * 16 + d) :: acc)
        | _, _, _, _ => none
      | _ => none
    else parseStr fuel rest (c :: acc)

/-- Parse array elements after `[` (at least one element). -/
def parseArrElems : Nat → List Char → List Json → Option (Json × List Char)
  | 0, _, _ => none
  | fuel + 1, cs, acc =>
    match parseValue fuel cs with
    | none => none
    | some (v, r) =>
      match r.dropWhile isJsonWs with
      | ',' :: r2 => parseArrElems fuel r2 (v :: acc)
      | ']' :: r2 => some (.arr (v :: acc).reverse, r2)
      | _ => none

/-- Insert a parsed object member, overwriting a duplicate key as
`json.loads` does (last value wins). -/
def upsertField : List (String × Json) → String → Json → List (String × Json)
  | [], k, v => [(k, v)]
  | (k0, v0) :: rest, k, v =>
    if k0 = k then (k, v) :: rest else (k0, v0) :: upsertField rest k v

/-- Parse object members after the opening brace (at least one member). -/
def parseObjFields : Nat → List Char → List (String × Json) →
    Option (Json × List Char)
  | 0, _, _ => none
  | fuel + 1, cs, acc =>
    match cs.dropWhile isJsonWs with
    | '\"' :: rest =>
      match parseStr fuel rest [] with
      | none => none
      | some (key, r) =>
        match r.dropWhile isJsonWs with
        | ':' :: r2 =>
          match parseValue fuel r2 with
          | none => none
          | some (v, r3) =>
            match r3.dropWhile isJsonWs with
            | ',' :: r4 => parseObjFields fuel r4 (upsertField acc key v)
            | c :: r4 =>
              if c = braceClose then some (.obj (upsertField acc key v), r4)
              else none
            | [] => none
        | _ => none
    | _ => none

end

/-- `json.loads`: parse one JSON document, allowing surrounding JSON
whitespace, rejecting trailing content. -/
def loads (s : String) : Option Json :=
  match parseValue (2 * s.data.length + 2) s.data with
  | some (v, rest) => if (rest.dropWhile isJsonWs).isEmpty then some v else none
  | none => none

/-! ### The three-tier JSON extraction of `_extract_json`
(`src/app/agent/react.py` lines 40-64, duplicated verbatim in
`src/app/agent/reflection.py` lines 22-46).

Tier (a) is the regex search
for a fenced code block with a lazily matched brace group; tier (b) parses
the whole stripped text; tier (c) is the regex `\{.*\}` with DOTALL, i.e.
the substring from the first opening brace to the last closing brace. -/

/-- Does a triple-backtick fence start here? -/
def fenceAt (cs : List Char) : Bool :=
  match cs with
  | a :: b :: c :: _ => a = btick && b = btick && c = btick
  | _ => false

/-- Scan for the earliest closing brace of the lazy group `(\{.*?\})` whose
tail matches `\s*` followed by the closing fence.  `acc` holds the group
content scanned so far, reversed. -/
def lazyClose : List Char → List Char → Option (List Char)
  | [], _ => none
  | c :: rest, acc =>
    if c = braceClose && fenceAt (rest.dropWhile isRegexWs) then
      some ((c :: acc).reverse)
    else lazyClose rest (c :: acc)

/-- Match `\s*(\{.*?\})\s*` followed by a closing fence, returning the
captured group. -/
def matchCore (cs : List Char) : Option (List Char) :=
  match cs.dropWhile isRegexWs with
  | c :: rest => if c = braceOpen then lazyClose rest [braceOpen] else none
  | [] => none

/-- Try to match the fence regex at this exact position: the opening fence,
a greedy optional `json` keyword (with backtracking), then the group. -/
def matchFenceAt (cs : List Char) : Option (List Char) :=
  match cs with
  | a :: b :: c :: rest =>
    if a = btick && b = btick && c = btick then
      match rest with
      | 'j' :: 's' :: 'o' :: 'n' :: r2 =>
        (match matchCore r2 with
         | some g => some g
         | none => matchCore rest)
      | _ => matchCore rest
    else none
  | _ => none

/-- `re.search` for the fenced-block pattern: leftmost matching position. -/
def searchFence : List Char → Option (List Char)
  | [] => none
  | c :: rest =>
    match matchFenceAt (c :: rest) with
    | some g => some g
    | none => searchFence rest

/-- The match of `re.search(r"\{.*\}", text, re.DOTALL)`: from the first
opening brace to the last closing brace after it (greedy `.*`). -/
def tierCSub (cs : List Char) : Option (List Char) :=
  match cs.dropWhile (· != braceOpen) with
  | [] => none
  | _ :: rest =>
    match rest.reverse.dropWhile (· != braceClose) with
    | [] => none
    | _ :: revPre => some (braceOpen :: (revPre.reverse ++ [braceClose]))

/-- Tiers (b) and (c) of `_extract_json`. -/
def extractJsonRest (text : String) : Option Json :=
  match loads (pyStrip text) with
  | some v => some v
  | none =>
    match tierCSub text.data with
    | some g => loads (String.mk g)
    | none => none

/-- `_extract_json` from `src/app/agent/react.py` (and identically from
`src/app/agent/reflection.py`): extract a JSON value from an LLM response
with the three-tier fallback.  As in the source, the return value is
whatever `json.loads` produced, which need not be a map. -/
def extract_json (text : String) : Option Json :=
  match searchFence text.data with
  | some g =>
    match loads (String.mk g) with
    | some v => some v
    | none => extractJsonRest text
  | none => extractJsonRest text

/-- Helper for `first_balanced_substring`: scan with a depth counter. -/
def firstBalancedGo : List Char → Nat → List Char → Option (List Char)
  | [], _, _ => none
  | c :: r, depth, acc =>
    if c = braceClose then
      if depth = 1 then some ((c :: acc).reverse)
      else firstBalancedGo r (depth - 1) (c :: acc)
    else if c = braceOpen then firstBalancedGo r (depth + 1) (c :: acc)
    else firstBalancedGo r depth (c :: acc)

/-- Follows the spec's words (§4.2 step 3): "the first brace-balanced
substring in the response" — the shortest substring starting at the first
opening brace in which the braces balance. -/
def first_balanced_substring (cs : List Char) : Option (List Char) :=
  match cs.dropWhile (· != braceOpen) with
  | [] => none
  | _ :: rest => firstBalancedGo rest 1 [braceOpen]

/-- Follows the spec's words: the three-tier extraction with tier (c) read
as "the first brace-balanced substring in the response".  Used to compare
the specified extraction against the implemented `extract_json`. -/
def extract_json_spec (text : String) : Option Json :=
  let tail :=
    match loads (pyStrip text) with
    | some v => some v
    | none =>
      match first_balanced_substring text.data with
      | some g => loads (String.mk g)
      | none => none
  match searchFence text.data with
  | some g =>
    match loads (String.mk g) with
    | some v => some v
    | none => tail
  | none => tail

/-! ### Python value-to-string conversions used by f-strings and
`_format_observation` (`src/app/agent/react.py` lines 93-98).  The exact
rendering of numbers and containers abstracts the CPython formatting; no
claim inspects these strings beyond equality of whole messages built from
plain string fields. -/

/-- Rendering of a number (Python prints integers without a decimal
point; the fractional rendering is abstracted). -/
def ratRepr (q : Rat) : String :=
  if q.den = 1 then toString q.num else toString q

mutual

/-- A JSON serialization of a dynamic value, standing in for
`json.dumps(..., default=str)` / `repr` (indentation and string escaping
abstracted). -/
def dumps : Json → String
  | .null => "null"
  | .bool true => "true"
  | .bool false => "false"
  | .num q => ratRepr q
  | .str s => "\"" ++ s ++ "\""
  | .arr xs => "[" ++ String.intercalate ", " (dumpsList xs) ++ "]"
  | .obj fs =>
    String.singleton braceOpen ++ String.intercalate ", " (dumpsFields fs) ++
      String.singleton braceClose

/-- Serialize array elements. -/
def dumpsList : List Json → List String
  | [] => []
  | x :: xs => dumps x :: dumpsList xs

/-- Serialize object members. -/
def dumpsFields : List (String × Json) → List String
  | [] => []
  | (k, v) :: fs => ("\"" ++ k ++ "\": " ++ dumps v) :: dumpsFields fs

end

/-- Python `str()` of a dynamic value (container rendering abstracted). -/
def pyStr : Json → String
  | .str s => s
  | .null => "None"
  | .bool true => "True"
  | .bool false => "False"
  | .num q => ratRepr q
  | j => dumps j

/-- Python type name of a dynamic value, for exception messages
(numbers are reported as `float`; the loop never relies on the text). -/
def pyTypeName : Json → String
  | .null => "NoneType"
  | .bool _ => "bool"
  | .num _ => "float"
  | .str _ => "str"
  | .arr _ => "list"
  | .obj _ => "dict"

/-- The `AttributeError` raised by calling `.get` on a non-dict value. -/
def getAttrMsg (j : Json) : String :=
  "AttributeError: \x27" ++ pyTypeName j ++ "\x27 object has no attribute \x27get\x27"

/-- Python `str(x)` for an optional string (`None` prints as `None`). -/
def pyStrOpt : Option String → String
  | some s => s
  | none => "None"

/-! ### Tool registry (`src/app/tools/registry.py`)

A tool's externally observable behaviour is a function from its keyword
arguments (a JSON object) to either a raised exception (`Except.error`) or
a returned `ToolResult`.  The registry is the name-keyed mapping
`ToolRegistry._tools`; keys are unique, as in a Python dict. -/

/-- `ToolResult` from `src/app/tools/base.py`: success flag, opaque data
payload (`None` modelled as `Json.null`), optional error text. -/
structure ToolResult where
  success : Bool
  data : Json := .null
  error : Option String := none
  deriving Repr, Inhabited

/-- A registered capability: name paired with its dispatch behaviour. -/
abbrev Registry := List (String × (Json → Except String ToolResult))

/-- Dict lookup over the registry (keys unique). -/
def lookupTool : Registry → String → Option (Json → Except String ToolResult)
  | [], _ => none
  | (n, beh) :: rest, name => if n = name then some beh else lookupTool rest name

/-- `ToolRegistry.list_tools`: all registered names in registration order. -/
def list_tools (tools : Registry) : List String :=
  tools.map Prod.fst

/-- `ToolRegistry.__contains__`. -/
def registryContains (tools : Registry) (name : String) : Bool :=
  (lookupTool tools name).isSome

/-- `ToolRegistry.execute` (`src/app/tools/registry.py` lines 89-116):
unknown names return a failure result enumerating the registered names;
exceptions raised by the tool are converted into a failure result. -/
def registry_execute (tools : Registry) (name : String) (input : Json) :
    ToolResult :=
  match lookupTool tools name with
  | none =>
    { success := false
      error := some ("Tool \x27" ++ name ++ "\x27 not found. Available tools: " ++
        String.intercalate ", " (list_tools tools)) }
  | some beh =>
    match beh input with
    | .ok r => r
    | .error e => { success := false, error := some ("Tool execution failed: " ++ e) }

/-! ### The ReAct loop (`src/app/agent/react.py`)

The loop is parameterised by the registry and by the language model, which
is modelled as a map from the step number to either a raised exception or
the raw response text (prompts only feed the external model, so they do not
influence the embedded control flow).  Python exceptions escaping
`run_react_loop` are modelled as `Except.error`. -/

/-- `ReActStep`.  `thought`, `action` and `action_input` hold whatever the
parsed response map contained (any JSON value, as in the source). -/
structure ReActStep where
  step_number : Nat
  thought : Json
  action : Json
  action_input : Json
  observation : Option String := none
  error : Option String := none
  deriving Repr, Inhabited

/-- `ReActResult`.  `sources` holds the appended `article.get("url")`
values, which are arbitrary truthy JSON values in the source. -/
structure ReActResult where
  success : Bool
  steps : List ReActStep := []
  final_answer : Option Json := none
  tools_used : List String := []
  sources : List Json := []
  error : Option String := none
  deriving Repr, Inhabited

/-- `_format_observation`: dict payloads are serialized, anything else is
`str()`-ed. -/
def format_observation (data : Json) : String :=
  match data with
  | .obj fs => dumps (.obj fs)
  | j => pyStr j

/-- Walk the `articles` list of a news result collecting truthy
`article.get("url")` values; a non-dict entry raises `AttributeError`,
which the loop body catches, keeping the URLs already appended.  Returns
the collected values and the error of the interrupted iteration, if any. -/
def collectUrls : List Json → List Json × Option String
  | [] => ([], none)
  | a :: rest =>
    match a with
    | .obj afs =>
      let tail := collectUrls rest
      match objGet afs "url" with
      | some u => if u.truthy then (u :: tail.1, tail.2) else tail
      | none => tail
    | other => ([], some (getAttrMsg other))

/-- Iterating a non-list `articles` value as Python would: empty strings
and dicts iterate zero times; non-empty ones yield non-dict items whose
`.get` raises; scalars are not iterable. -/
def iterArticles : Json → List Json × Option String
  | .arr items => collectUrls items
  | .str s =>
    if s.isEmpty then ([], none)
    else ([], some (getAttrMsg (.str s)))
  | .obj fs =>
    if fs.isEmpty then ([], none)
    else ([], some (getAttrMsg (.str "")))
  | other => ([], some ("TypeError: \x27" ++ pyTypeName other ++ "\x27 object is not iterable"))

/-- Outcome of one loop iteration: skip (no JSON / falsy JSON), a recorded
step with the new accumulator values, the final answer, a fatal LLM
failure, or an uncaught exception. -/
inductive IterOutcome where
  | skip
  | record (step : ReActStep) (tools_used : List String) (sources : List Json)
  | finalize (step : ReActStep) (answer : Json)
  | llmFail (msg : String)
  | crash (msg : String)
  deriving Repr, Inhabited

/-- The `try:` block around tool execution (`react.py` lines 197-224),
including the loop-level `except` that converts an exception raised while
reading the result payload into a step error, preserving mutations already
performed (`tools_used` is appended before the sources loop runs). -/
def execKnown (tools : Registry) (name : String) (stepNum : Nat)
    (thought action input : Json) (tu : List String) (srcs : List Json) :
    IterOutcome :=
  let mkStep := fun (obs err : Option String) =>
    ReActStep.mk stepNum thought action input obs err
  match input with
  | .obj _ =>
    let r := registry_execute tools name input
    if r.success then
      let obs := format_observation r.data
      if name = "ticker_extractor" && r.data.truthy then
        match r.data with
        | .obj dfs =>
          let method := (objGet dfs "method").getD (.str "unknown")
          .record (mkStep (some obs) none)
            (tu ++ ["ticker_extractor:" ++ pyStr method]) srcs
        | other =>
          -- `result.data.get("method", ...)` raised before the append
          let e := getAttrMsg other
          .record (mkStep (some ("Tool execution failed: " ++ e)) (some e)) tu srcs
      else
        let tu' := tu ++ [name]
        if name = "news_retriever" && r.data.truthy then
          match r.data with
          | .obj dfs =>
            let articles := (objGet dfs "articles").getD (.arr [])
            match iterArticles articles with
            | (us, none) => .record (mkStep (some obs) none) tu' (srcs ++ us)
            | (us, some e) =>
              .record (mkStep (some ("Tool execution failed: " ++ e)) (some e))
                tu' (srcs ++ us)
          | other =>
            let e := getAttrMsg other
            .record (mkStep (some ("Tool execution failed: " ++ e)) (some e)) tu' srcs
        else
          .record (mkStep (some obs) none) tu' srcs
    else
      .record (mkStep (some ("Tool error: " ++ pyStrOpt r.error)) r.error) tu srcs
  | _ =>
    -- `registry.execute(action, **action_input)` with a non-mapping
    let e := "TypeError: argument after ** must be a mapping"
    .record (mkStep (some ("Tool execution failed: " ++ e)) (some e)) tu srcs

/-- One iteration of the loop body (`react.py` lines 129-226), from the LLM
call through the step append. -/
def react_iteration (tools : Registry) (resp : Except String String)
    (stepNum : Nat) (tu : List String) (srcs : List Json) : IterOutcome :=
  match resp with
  | .error e => .llmFail ("LLM call failed: " ++ e)
  | .ok response =>
    match extract_json response with
    | none => .skip
    | some parsed =>
      if parsed.truthy = false then .skip
      else
        match parsed with
        | .obj fields =>
          let thought := (objGet fields "thought").getD (.str "")
          let action := (objGet fields "action").getD (.str "")
          let actionInput := (objGet fields "action_input").getD (.obj [])
          match action with
          | .str aname =>
            if aname = "final_answer" then
              .finalize ⟨stepNum, thought, action, actionInput, none, none⟩
                actionInput
            else if registryContains tools aname then
              execKnown tools aname stepNum thought action actionInput tu srcs
            else
              let e := "Unknown tool: " ++ aname ++ ". Available tools: " ++
                dumps (.arr ((list_tools tools).map Json.str))
              .record ⟨stepNum, thought, action, actionInput, some e, some e⟩ tu srcs
          | .arr xs =>
            -- `action not in registry` with an unhashable key raises
            .crash ("TypeError: unhashable type: \x27" ++ pyTypeName (.arr xs) ++ "\x27")
          | .obj fs =>
            .crash ("TypeError: unhashable type: \x27" ++ pyTypeName (.obj fs) ++ "\x27")
          | other =>
            -- hashable non-string keys are simply not in the dict
            let e := "Unknown tool: " ++ pyStr other ++ ". Available tools: " ++
              dumps (.arr ((list_tools tools).map Json.str))
            .record ⟨stepNum, thought, other, actionInput, some e, some e⟩ tu srcs
        | nonMap =>
          -- `parsed.get("thought", "")` on a truthy non-dict value raises
          .crash (getAttrMsg nonMap)

/-- The iteration loop of `run_react_loop`, recursing on the remaining
budget; `list(set(...))` at result construction is modelled by `dedup`
(Python set iteration order is unspecified; claims compare as finite
sets). -/
def runReactLoopAux (tools : Registry) (llm : Nat → Except String String)
    (maxSteps : Nat) :
    Nat → List ReActStep → List String → List Json → Except String ReActResult
  | 0, steps, tu, srcs =>
    .ok { success := false, steps := steps, tools_used := tu.dedup,
          sources := srcs,
          error := some ("Analysis incomplete after " ++ toString maxSteps ++ " steps") }
  | remaining + 1, steps, tu, srcs =>
    let stepNum := maxSteps - remaining
    match react_iteration tools (llm stepNum) stepNum tu srcs with
    | .llmFail msg =>
      .ok { success := false, steps := steps, tools_used := tu,
            sources := srcs, error := some msg }
    | .crash msg => .error msg
    | .skip => runReactLoopAux tools llm maxSteps remaining steps tu srcs
    | .record step tu' srcs' =>
      runReactLoopAux tools llm maxSteps remaining (steps ++ [step]) tu' srcs'
    | .finalize step ans =>
      .ok { success := true, steps := steps ++ [step], final_answer := some ans,
            tools_used := tu.dedup, sources := srcs }

/-- `run_react_loop` (`src/app/agent/react.py` lines 101-236). -/
def run_react_loop (tools : Registry) (llm : Nat → Except String String)
    (max_steps : Nat) : Except String ReActResult :=
  runReactLoopAux tools llm max_steps max_steps [] [] []

/-! ### Python `float()` conversion (used on `sentiment_score` and
`quality_score`).  Non-finite inputs (`nan`, `inf`) and underscore
separators are outside the rational model. -/

/-- `float()` applied to a string. -/
def parseFloatStr (s : String) : Option Rat :=
  let cs := (pyStrip s).data
  let (neg, cs1) :=
    match cs with
    | '-' :: r => (true, r)
    | '+' :: r => (false, r)
    | _ => (false, cs)
  let intDs := cs1.takeWhile Char.isDigit
  let r0 := cs1.dropWhile Char.isDigit
  let (fracDs, r1) :=
    match r0 with
    | '.' :: r => (r.takeWhile Char.isDigit, r.dropWhile Char.isDigit)
    | _ => ([], r0)
  if intDs.isEmpty && fracDs.isEmpty then none
  else
    let mant := digitsToNat (intDs ++ fracDs)
    match r1 with
    | [] => some (numValue neg mant fracDs.length 0)
    | 'e' :: r | 'E' :: r =>
      let (eneg, r2) :=
        match r with
        | '-' :: rr => (true, rr)
        | '+' :: rr => (false, rr)
        | _ => (false, r)
      let eDs := r2.takeWhile Char.isDigit
      let r3 := r2.dropWhile Char.isDigit
      if eDs.isEmpty || !r3.isEmpty then none
      else
        some (numValue neg mant fracDs.length
          ((if eneg then -1 else 1) * (digitsToNat eDs : Int)))
    | _ => none

/-- Python `float(x)` on a dynamic value; raises on values float() rejects. -/
def pyFloat : Json → Except String Rat
  | .num q => .ok q
  | .bool b => .ok (if b then 1 else 0)
  | .str s =>
    match parseFloatStr s with
    | some q => .ok q
    | none => .error ("ValueError: could not convert string to float: \x27" ++ s ++ "\x27")
  | other => .error ("TypeError: float() argument must be a string or a real number, not \x27"
      ++ pyTypeName other ++ "\x27")

/-! ### Reflection gate (`src/app/agent/reflection.py`)

The gate's model call is abstracted as its outcome (raised exception or
response text); everything from the call through the field extraction is
wrapped in the source's `try`, so every fault falls through to the default
verdict. -/

/-- `ReflectionResult`.  `is_acceptable`, `improvements` entries and
`refined_summary` carry whatever the parsed map held (any JSON value). -/
structure ReflectionResult where
  quality_score : Rat
  is_acceptable : Json
  improvements : List Json
  refined_summary : Json := .null
  deriving Repr, Inhabited

/-- The fail-open default verdict built when the call or parse fails. -/
def defaultReflection : ReflectionResult :=
  { quality_score := 1 / 2
    is_acceptable := .bool true
    improvements := [.str "Reflection assessment could not be completed"] }

/-- `reflect_on_analysis` (`src/app/agent/reflection.py` lines 49-112).
The prompt inputs only feed the external model and are absorbed into
`llmOutcome`. -/
def reflect_on_analysis (llmOutcome : Except String String)
    (min_quality_score : Rat) : ReflectionResult :=
  match llmOutcome with
  | .error _ => defaultReflection
  | .ok response =>
    match extract_json response with
    | none => defaultReflection
    | some parsed =>
      if parsed.truthy = false then defaultReflection
      else
        match parsed with
        | .obj fs =>
          match pyFloat ((objGet fs "quality_score").getD (.num (1 / 2))) with
          | .error _ => defaultReflection
          | .ok q =>
            { quality_score := q
              is_acceptable := (objGet fs "is_acceptable").getD
                (.bool (decide (min_quality_score ≤ q)))
              improvements :=
                (match objGet fs "improvements" with
                 | some (.arr xs) => xs
                 | _ => [])
              refined_summary := (objGet fs "refined_summary").getD .null }
        | _ =>
          -- `parsed.get(...)` raised inside the try: swallowed
          defaultReflection

/-! ### Orchestrator (`src/app/agent/orchestrator.py`)

`run_agent` is parameterised by the outcome of each attempt's loop run and
each attempt's reflection verdict (both are driven by the external model).
The pydantic validation of `AnalysisReport` (`src/app/schemas/responses.py`
lines 54-71) is embedded in `mkAnalysisReport`. -/

/-- `AnalysisReport` (the `generated_at` wall-clock field is outside the
model). -/
structure AnalysisReport where
  company_ticker : String
  analysis_summary : String
  sentiment_score : Rat
  key_findings : List String
  tools_used : List String
  citation_sources : List Json
  deriving Repr, Inhabited

/-- Is this JSON value a string? -/
def isJsonStr : Json → Bool
  | .str _ => true
  | _ => false

/-- Construct an `AnalysisReport`, performing the pydantic field
validation: `analysis_summary` must be a string, `sentiment_score` within
`[-1, 1]`, `key_findings` between 1 and 5 entries, `citation_sources` all
strings.  A validation failure raises. -/
def mkAnalysisReport (ticker : String) (summary : Json) (sent : Rat)
    (findings : List String) (tu : List String) (srcs : List Json) :
    Except String AnalysisReport :=
  match summary with
  | .str s =>
    if srcs.all isJsonStr then
      if -1 ≤ sent ∧ sent ≤ 1 ∧ 1 ≤ findings.length ∧ findings.length ≤ 5 then
        .ok ⟨ticker, s, sent, findings, tu, srcs⟩
      else .error "ValidationError: AnalysisReport field constraints"
    else .error "ValidationError: citation_sources must be strings"
  | _ => .error "ValidationError: analysis_summary must be a string"

/-- The placeholder finding substituted when the sanitized list is empty. -/
def placeholderFinding : String :=
  "Analysis completed but no specific findings extracted"

/-- The findings sanitization of `run_agent` (lines 78-81): a non-list is
wrapped, entries are `str()`-coerced, at most five are kept. -/
def sanitizeFindings (j : Json) : List String :=
  match j with
  | .arr xs => (xs.take 5).map pyStr
  | other => [pyStr other]

/-- `last_error = react_result.error or "ReAct loop failed"`. -/
def loopFailCause (rr : ReActResult) : String :=
  match rr.error with
  | some e => if e = "" then "ReAct loop failed" else e
  | none => "ReAct loop failed"

/-- Result of the orchestrator together with the number of loop runs it
performed (the run count is a ghost observation used to state the retry
budget). -/
structure AgentOutcome where
  result : Except String AnalysisReport
  loop_runs : Nat
  deriving Repr, Inhabited

/-- Increment the run counter of a completed recursion. -/
def bumpRuns (o : AgentOutcome) : AgentOutcome :=
  ⟨o.result, o.loop_runs + 1⟩

/-- The attempt loop of `run_agent` (lines 47-123), recursing on the number
of attempts remaining.  `attempt = max_retries + 1 - remaining`. -/
def runAgentAux (loopRun : Nat → Except String ReActResult)
    (reflect : Nat → ReflectionResult) (ticker : String)
    (enable_reflection : Bool) (max_retries : Nat) :
    Nat → Option String → AgentOutcome
  | 0, lastErr =>
    ⟨.error ("Analysis failed after " ++ toString (max_retries + 1) ++
      " attempts: " ++ pyStrOpt lastErr), 0⟩
  | remaining + 1, lastErr =>
    let attempt := max_retries - remaining
    match loopRun attempt with
    | .error e => ⟨.error e, 1⟩
    | .ok rr =>
      if rr.success = false then
        bumpRuns (runAgentAux loopRun reflect ticker enable_reflection
          max_retries remaining (some (loopFailCause rr)))
      else
        match rr.final_answer with
        | none =>
          bumpRuns (runAgentAux loopRun reflect ticker enable_reflection
            max_retries remaining (some "No final answer generated"))
        | some fin =>
          if fin.truthy = false then
            bumpRuns (runAgentAux loopRun reflect ticker enable_reflection
              max_retries remaining (some "No final answer generated"))
          else
            match fin with
            | .obj ffs =>
              let summary0 := (objGet ffs "analysis_summary").getD (.str "")
              match pyFloat ((objGet ffs "sentiment_score").getD (.num 0)) with
              | .error e => ⟨.error e, 1⟩
              | .ok raw =>
                let sent := max (-1 : Rat) (min 1 raw)
                let kf := sanitizeFindings ((objGet ffs "key_findings").getD (.arr []))
                if enable_reflection then
                  let refl := reflect attempt
                  let summary1 :=
                    if refl.refined_summary.truthy && refl.is_acceptable.truthy
                    then refl.refined_summary else summary0
                  if refl.is_acceptable.truthy = false ∧ attempt < max_retries then
                    bumpRuns (runAgentAux loopRun reflect ticker enable_reflection
                      max_retries remaining
                      (some ("Quality score too low: " ++ ratRepr refl.quality_score)))
                  else
                    ⟨mkAnalysisReport ticker summary1 sent
                      (if kf.isEmpty then [placeholderFinding] else kf)
                      rr.tools_used rr.sources, 1⟩
                else
                  ⟨mkAnalysisReport ticker summary0 sent
                    (if kf.isEmpty then [placeholderFinding] else kf)
                    rr.tools_used rr.sources, 1⟩
            | nonMap =>
              -- `final.get("analysis_summary", "")` raised
              ⟨.error (getAttrMsg nonMap), 1⟩

/-- `run_agent` (`src/app/agent/orchestrator.py` lines 11-123). -/
def run_agent (loopRun : Nat → Except String ReActResult)
    (reflect : Nat → ReflectionResult) (ticker : String)
    (enable_reflection : Bool) (max_retries : Nat) :
    Except String AnalysisReport :=
  (runAgentAux loopRun reflect ticker enable_reflection max_retries
    (max_retries + 1) none).result

/-- The number of loop runs `run_agent` performs. -/
def run_agent_runs (loopRun : Nat → Except String ReActResult)
    (reflect : Nat → ReflectionResult) (ticker : String)
    (enable_reflection : Bool) (max_retries : Nat) : Nat :=
  (runAgentAux loopRun reflect ticker enable_reflection max_retries
    (max_retries + 1) none).loop_runs

/-- `run_quick_analysis` (lines 126-148): `run_agent` with reflection off
and zero retries (the smaller step budget is absorbed into `loopRun`). -/
def run_quick_analysis (loopRun : Nat → Except String ReActResult)
    (ticker : String) : Except String AnalysisReport :=
  run_agent loopRun (fun _ => defaultReflection) ticker false 0

/-! ### Monitor state store (`src/app/storage/monitor_state.py`) and
monitoring task (`src/app/scheduler/tasks.py`)

The monitors table (`ticker` is its primary key) is modelled as a list of
rows; every operation selects by `ticker.upper()`.  Wall-clock datetimes
are rationals (hours); the md5 fingerprint digest is an external function
passed as a parameter. -/

/-- A row of the `monitors` table (`src/app/database/models.py`). -/
structure Monitor where
  ticker : String
  interval_hours : Rat
  last_run : Option Rat := none
  next_run : Option Rat := none
  seen_article_hashes : List String := []
  is_active : Bool := true
  deriving Repr, Inhabited, DecidableEq

/-- The monitors table. -/
abbrev MonitorStore := List Monitor

/-- Uppercase an ASCII letter. -/
def pyUpperChar (c : Char) : Char :=
  if 'a' ≤ c ∧ c ≤ 'z' then Char.ofNat (c.toNat - 32) else c

/-- Python `str.upper()` (ASCII fragment). -/
def pyUpper (s : String) : String := String.mk (s.data.map pyUpperChar)

/-- `MonitorStateStore.get_monitor`. -/
def get_monitor (st : MonitorStore) (ticker : String) : Option Monitor :=
  st.find? (fun m => m.ticker = pyUpper ticker)

/-- `MonitorStateStore.create_monitor`: update the existing row (keeping
its seen set) or insert a fresh active row with an empty seen list. -/
def create_monitor (st : MonitorStore) (ticker : String) (interval_hours : Rat)
    (next_run : Rat) : MonitorStore :=
  if (get_monitor st ticker).isSome then
    st.map (fun m =>
      if m.ticker = pyUpper ticker then
        { m with interval_hours := interval_hours, next_run := some next_run,
                 is_active := true }
      else m)
  else
    st ++ [{ ticker := pyUpper ticker, interval_hours := interval_hours,
             next_run := some next_run, seen_article_hashes := [],
             is_active := true }]

/-- `MonitorStateStore.update_last_run`. -/
def update_last_run (st : MonitorStore) (ticker : String) (last_run next_run : Rat) :
    MonitorStore :=
  st.map (fun m =>
    if m.ticker = pyUpper ticker then
      { m with last_run := some last_run, next_run := some next_run }
    else m)

/-- `MonitorStateStore.add_seen_articles`: the stored list becomes the set
union of the old entries and the added hashes (Python materializes
`list(set(...))` in unspecified order; the union is modelled canonically
by `dedup` of the concatenation — claims compare as finite sets). -/
def add_seen_articles (st : MonitorStore) (ticker : String)
    (article_hashes : List String) : MonitorStore :=
  st.map (fun m =>
    if m.ticker = pyUpper ticker then
      { m with seen_article_hashes := (m.seen_article_hashes ++ article_hashes).dedup }
    else m)

/-- `MonitorStateStore.stop_monitor`. -/
def stop_monitor (st : MonitorStore) (ticker : String) : MonitorStore :=
  st.map (fun m =>
    if m.ticker = pyUpper ticker then
      { m with is_active := false, next_run := none }
    else m)

/-- `MonitorStateStore.delete_monitor`. -/
def delete_monitor (st : MonitorStore) (ticker : String) : MonitorStore :=
  st.filter (fun m => m.ticker ≠ pyUpper ticker)

/-- An alert row (`create_alert` in `src/app/storage/alert_store.py`;
the `triggered_at` wall-clock field is outside the model). -/
structure Alert where
  alert_id : String
  alert_type : String
  ticker : String
  report : AnalysisReport
  deriving Repr, Inhabited

/-- `_hash_article` (`src/app/scheduler/tasks.py` lines 12-15): md5 hex
digest of `"{title}:{url}"`; the digest itself is the external `hashlib`
function `md5hex`. -/
def hash_article (md5hex : String → String) (title url : String) : String :=
  md5hex (title ++ ":" ++ url)

/-- The fingerprint the task computes for a fetched article value. -/
def article_fingerprint (md5hex : String → String) (a : Json) : String :=
  match a with
  | .obj afs =>
    hash_article md5hex (pyStr ((objGet afs "title").getD (.str "")))
      (pyStr ((objGet afs "url").getD (.str "")))
  | _ => ""

/-- The partition loop of `monitoring_task` (lines 64-73): walk the fetched
articles, counting those whose fingerprint is not in the seen set sampled
before the loop (`new_articles`) and collecting their fingerprints as a set
(`new_hashes`).  A non-dict article raises `AttributeError` (caught by the
task's outer handler); nothing is persisted in that case. -/
def partitionArticles (md5hex : String → String) (seen : List String) :
    List Json → Nat → List String → Nat × List String × Option String
  | [], k, hs => (k, hs.reverse, none)
  | a :: rest, k, hs =>
    match a with
    | .obj afs =>
      let h := article_fingerprint md5hex (.obj afs)
      if h ∈ seen then partitionArticles md5hex seen rest k hs
      else partitionArticles md5hex seen rest (k + 1)
        (if h ∈ hs then hs else h :: hs)
    | other => (k, hs.reverse, some (getAttrMsg other))

/-- `monitoring_task` (`src/app/scheduler/tasks.py` lines 18-109).  The
news fetch and the quick analysis are external calls passed as outcomes;
`now` is the sampled wall clock.  Returns the updated monitors table and
alerts list.  All exceptions inside the task body are caught by the
source's outer handler, so the function is total; a body failure leaves
the store as of the `update_last_run` write. -/
def monitoring_task (md5hex : String → String) (monitor_min_articles : Nat)
    (news : Except String ToolResult) (analysis : Except String AnalysisReport)
    (alert_id : String) (ticker : String) (now : Rat)
    (st : MonitorStore) (alerts : List Alert) : MonitorStore × List Alert :=
  match get_monitor st ticker with
  | none => (st, alerts)
  | some m =>
    if m.is_active = false then (st, alerts)
    else
      let st1 := update_last_run st ticker now (now + m.interval_hours)
      match news with
      | .error _ => (st1, alerts)
      | .ok r =>
        if r.success = false then (st1, alerts)
        else
          match r.data with
          | .obj dfs =>
            match (objGet dfs "articles").getD (.arr []) with
            | .arr items =>
              if items.isEmpty then (st1, alerts)
              else
                match partitionArticles md5hex m.seen_article_hashes items 0 [] with
                | (newCount, newHashes, none) =>
                  let st2 :=
                    if newHashes.isEmpty then st1
                    else add_seen_articles st1 ticker newHashes
                  if newCount < monitor_min_articles then (st2, alerts)
                  else
                    match analysis with
                    | .ok report =>
                      (st2, alerts ++
                        [{ alert_id := alert_id, alert_type := "PROACTIVE_ALERT",
                           ticker := pyUpper ticker, report := report }])
                    | .error _ => (st2, alerts)
                | (_, _, some _) =>
                  -- article hashing raised before any seen-set write
                  (st1, alerts)
            | other =>
              -- a falsy non-list is the early `if not articles` return; a
              -- truthy one raises while iterating — caught either way
              (st1, alerts)
          | _ =>
            -- `news_result.data.get(...)` raised — caught
            (st1, alerts)

/-! ### Specification-side description of the loop's bookkeeping (§4.2)

For the refinement claim about `tools_used` and `sources`, the following
definitions follow the specification's words: per iteration, a known action
whose dispatch succeeds adds its capability name to the usage collection
(a ticker-extraction call records `name:method`), and a successful
news-retrieval step appends every returned source URL, without
deduplication.  They are compared against `run_react_loop`. -/

/-- The recorded extraction method of a ticker-extraction result, per the
spec's `name:method` wording. -/
def spec_method (d : Json) : String :=
  match d with
  | .obj dfs => pyStr ((objGet dfs "method").getD (.str "unknown"))
  | _ => "unknown"

/-- The URL of one returned article, when present and non-empty. -/
def spec_url_of (a : Json) : Option String :=
  match a with
  | .obj afs =>
    (match objGet afs "url" with
     | some (.str u) => if u = "" then none else some u
     | _ => none)
  | _ => none

/-- The source URLs a successful news-retrieval result returns. -/
def spec_urls (d : Json) : List String :=
  match d with
  | .obj dfs =>
    match objGet dfs "articles" with
    | some (.arr arts) => arts.filterMap spec_url_of
    | _ => []
  | _ => []

/-- The usage/sources contribution of dispatching one action, per the
spec: `some (identifier, urls)` when the dispatch succeeds, `none`
otherwise. -/
def spec_dispatch (tools : Registry) (aname : String) (input : Json) :
    Option (String × List String) :=
  match lookupTool tools aname with
  | some beh =>
    match input with
    | .obj _ =>
      (match beh input with
       | .ok r =>
         if r.success then
           some
             ((if aname = "ticker_extractor" then
                 "ticker_extractor:" ++ spec_method r.data
               else aname),
              (if aname = "news_retriever" then spec_urls r.data else []))
         else none
       | .error _ => none)
    | _ => none
  | none => none

/-- Classification of one iteration per the spec's words. -/
inductive SpecStep where
  | stop
  | pass
  | contrib (id : String) (urls : List String)
  deriving Repr, Inhabited

/-- One iteration of the spec-side bookkeeping. -/
def spec_step (tools : Registry) (resp : Except String String) : SpecStep :=
  match resp with
  | .error _ => .stop
  | .ok response =>
    match extract_json response with
    | none => .pass
    | some parsed =>
      if parsed.truthy = false then .pass
      else
        match parsed with
        | .obj fields =>
          let action := (objGet fields "action").getD (.str "")
          match action with
          | .str aname =>
            if aname = "final_answer" then .stop
            else
              match spec_dispatch tools aname
                ((objGet fields "action_input").getD (.obj [])) with
              | some (id, us) => .contrib id us
              | none => .pass
          | .arr _ => .stop
          | .obj _ => .stop
          | _ => .pass
        | _ => .stop

/-- The spec-side trace of a run: the capability identifiers used and the
news URLs encountered, in order. -/
def spec_trace (tools : Registry) (llm : Nat → Except String String)
    (maxSteps : Nat) : Nat → List String × List String
  | 0 => ([], [])
  | remaining + 1 =>
    match spec_step tools (llm (maxSteps - remaining)) with
    | .stop => ([], [])
    | .pass => spec_trace tools llm maxSteps remaining
    | .contrib id us =>
      let t := spec_trace tools llm maxSteps remaining
      (id :: t.1, us ++ t.2)

/-- A successful ticker-extraction result carries a dict payload with a
string `method` field (as the real tool returns). -/
def TickerDataOk (d : Json) : Prop :=
  ∃ dfs m, d = .obj dfs ∧ objGet dfs "method" = some (.str m)

/-- A successful news-retrieval result carries a dict payload whose
`articles` field is a list of dicts, each with a non-empty string `url`
(as the real tool returns). -/
def NewsDataOk (d : Json) : Prop :=
  ∃ dfs arts, d = .obj dfs ∧ objGet dfs "articles" = some (.arr arts) ∧
    ∀ a ∈ arts, ∃ afs u, a = .obj afs ∧ objGet afs "url" = some (.str u) ∧ u ≠ ""

/-- Well-formedness of the registered behaviours: the two specially
treated capabilities return payloads of the shape the real tools produce.
-/
def WellFormedTools (tools : Registry) : Prop :=
  (∀ beh, lookupTool tools "ticker_extractor" = some beh →
    ∀ input r, beh input = .ok r → r.success = true → TickerDataOk r.data) ∧
  (∀ beh, lookupTool tools "news_retriever" = some beh →
    ∀ input r, beh input = .ok r → r.success = true → NewsDataOk r.data)

/-! ### Concrete fixtures used to witness the theorems below. -/

/-- A registry with one well-behaved and one always-raising tool. -/
def c6Tools : Registry :=
  [("alpha", fun _ => .ok { success := true, data := .null }),
   ("boom", fun _ => .error "kaput")]

/-- A loop outcome producing a final answer with an out-of-range
sentiment. -/
def c1Loop : Nat → Except String ReActResult := fun _ =>
  .ok { success := true,
        final_answer := some (.obj
          [("analysis_summary", .str "ok"),
           ("sentiment_score", .num 7),
           ("key_findings", .arr [.str "f1"])]) }

/-- A loop run that reaches a success with a final answer. -/
def c3okResult : ReActResult :=
  { success := true,
    final_answer := some (.obj
      [("analysis_summary", .str "s"),
       ("sentiment_score", .num 0),
       ("key_findings", .arr [.str "f"])]) }

/-- Attempt 0 succeeds with a final answer; every later attempt fails. -/
def c3CexLoop : Nat → Except String ReActResult := fun a =>
  if a = 0 then .ok c3okResult
  else .ok { success := false, error := some "boom" }

/-- Every attempt succeeds with a final answer. -/
def c3WitLoop : Nat → Except String ReActResult := fun _ => .ok c3okResult

/-- A reflection gate that never accepts. -/
def rejectReflect : Nat → ReflectionResult := fun _ =>
  { quality_score := 0, is_acceptable := .bool false, improvements := [] }

/-- The report `run_agent` produces from `c1Loop` (sentiment clamped to 1). -/
def c1rep : AnalysisReport :=
  { company_ticker := "TSLA", analysis_summary := "ok", sentiment_score := 1,
    key_findings := ["f1"], tools_used := [], citation_sources := [] }

/-- The cause the orchestrator records for a non-returning last attempt. -/
def lastAttemptCause (rr : ReActResult) : String :=
  if rr.success = false then loopFailCause rr else "No final answer generated"

/-- The LLM keeps answering with a bare JSON array. -/
def c10llm : Nat → Except String String := fun _ => .ok "[1, 2]"

/-- A stand-in digest function for the monitor fixtures. -/
def c4md5 : String → String := fun s => "#" ++ s

/-- Fetched articles: one already seen, one new. -/
def c4items : List Json :=
  [.obj [("title", .str "A"), ("url", .str "uA")],
   .obj [("title", .str "B"), ("url", .str "uB")]]

/-- An active TSLA monitor row that has seen article A. -/
def c4row : Monitor :=
  { ticker := "TSLA", interval_hours := 24,
    seen_article_hashes := ["#A:uA"], is_active := true }

/-- A monitors table with the single row above. -/
def c4store : MonitorStore := [c4row]

/-- The news result of the fixture firing. -/
def c4news : ToolResult :=
  { success := true, data := .obj [("articles", .arr c4items)] }

/-- A monitors table for the seen-set invariant witness. -/
def c8store : MonitorStore :=
  [{ ticker := "NVDA", interval_hours := 12,
     seen_article_hashes := ["h1", "h2"], is_active := true }]

/-- Ticker-extraction fixture payload. -/
def c9tickerData : Json :=
  .obj [("ticker", .str "TSLA"), ("method", .str "regex")]

/-- News fixture payload with a duplicated URL. -/
def c9newsData : Json :=
  .obj [("articles", .arr
    [.obj [("url", .str "u1")],
     .obj [("url", .str "u2")],
     .obj [("url", .str "u1")]])]

/-- Ticker-extraction behaviour of the scenario. -/
def c9tickerBeh : Json → Except String ToolResult :=
  fun _ => .ok { success := true, data := c9tickerData }

/-- News-retrieval behaviour of the scenario. -/
def c9newsBeh : Json → Except String ToolResult :=
  fun _ => .ok { success := true, data := c9newsData }

/-- Sentiment behaviour of the scenario. -/
def c9sentBeh : Json → Except String ToolResult :=
  fun _ => .ok { success := true, data := .obj [("overall_score", .num (1/2))] }

/-- Financial-data behaviour of the scenario. -/
def c9finBeh : Json → Except String ToolResult :=
  fun _ => .ok { success := true, data := .obj [("price", .num 100)] }

/-- The registry of the TSLA scenario. -/
def c9Tools : Registry :=
  [("ticker_extractor", c9tickerBeh),
   ("news_retriever", c9newsBeh),
   ("sentiment_analyzer", c9sentBeh),
   ("finData_fetcher", c9finBeh)]

/-- One scripted model response taking the given action. -/
def c9resp (action : String) : String :=
  "\x7b\"thought\": \"t\", \"action\": \"" ++ action ++
    "\", \"action_input\": \x7b\x7d\x7d"

/-- The scripted model: financial data twice, news, ticker extraction,
then the final answer. -/
def c9llm : Nat → Except String String := fun i =>
  if i = 1 then .ok (c9resp "finData_fetcher")
  else if i = 2 then .ok (c9resp "news_retriever")
  else if i = 3 then .ok (c9resp "finData_fetcher")
  else if i = 4 then .ok (c9resp "ticker_extractor")
  else .ok (c9resp "final_answer")

/-! ## Theorems -/

/-- C6: registry dispatch is total over faults: an unknown name returns a
failure result whose error text enumerates all registered names; a
registered capability is invoked, and any exception it raises is converted
into a failure result with `success = false` and an error text — the
caller never observes a raised fault from dispatch. -/
theorem c6_registry_dispatch_total (tools : Registry) (name : String)
    (input : Json) :
    (lookupTool tools name = none →
      registry_execute tools name input =
        { success := false, data := .null,
          error := some ("Tool \x27" ++ name ++ "\x27 not found. Available tools: " ++
            String.intercalate ", " (list_tools tools)) } ∧
      list_tools tools = tools.map Prod.fst) ∧
    ∀ beh, lookupTool tools name = some beh →
      (∀ e, beh input = .error e →
        registry_execute tools name input =
          { success := false, data := .null,
            error := some ("Tool execution failed: " ++ e) }) ∧
      ∀ r, beh input = .ok r → registry_execute tools name input = r := by
  constructor
  · intro h
    refine ⟨?_, rfl⟩
    simp only [registry_execute, h]
  · intro beh h
    constructor
    · intro e he
      simp only [registry_execute, h, he]
    · intro r hr
      simp only [registry_execute, h, hr]

/-- Witness for C6 at a concrete registry: an unknown name and a raising
tool both yield failure results. -/
theorem c6_registry_dispatch_total_witness :
    registry_execute c6Tools "missing" (.obj []) =
      { success := false, data := .null,
        error := some "Tool \x27missing\x27 not found. Available tools: alpha, boom" } ∧
    registry_execute c6Tools "boom" (.obj []) =
      { success := false, data := .null,
        error := some "Tool execution failed: kaput" } := by
  refine ⟨?_, ?_⟩
  · exact ((c6_registry_dispatch_total c6Tools "missing" (.obj [])).1 rfl).1
  · exact ((c6_registry_dispatch_total c6Tools "boom" (.obj [])).2
      (fun _ => .error "kaput") rfl).1 "kaput" rfl

/-- C7: if the reflection gate's model call raises, or its response yields
no extractable JSON, `reflect_on_analysis` returns the default verdict —
quality score `0.5`, acceptance flag `true`, and an improvements list
holding the note that the evaluation could not be completed — instead of
propagating the fault. -/
theorem c7_reflection_fails_open (llmOutcome : Except String String)
    (minQ : Rat)
    (h : (∃ e, llmOutcome = .error e) ∨
         ∃ s, llmOutcome = .ok s ∧ extract_json s = none) :
    reflect_on_analysis llmOutcome minQ = defaultReflection ∧
    defaultReflection.quality_score = 1 / 2 ∧
    defaultReflection.is_acceptable = .bool true ∧
    Json.str "Reflection assessment could not be completed" ∈
      defaultReflection.improvements := by
  refine ⟨?_, rfl, rfl, by simp [defaultReflection]⟩
  rcases h with ⟨e, rfl⟩ | ⟨s, rfl, hs⟩
  · rfl
  · simp only [reflect_on_analysis, hs]

/-- Witness for C7: a raised model call and an unparseable response both
produce the default verdict. -/
theorem c7_reflection_fails_open_witness :
    reflect_on_analysis (.error "timeout") (7 / 10) = defaultReflection ∧
    reflect_on_analysis (.ok "no json here") (7 / 10) = defaultReflection := by
  exact ⟨(c7_reflection_fails_open (.error "timeout") (7 / 10)
      (Or.inl ⟨"timeout", rfl⟩)).1,
    (c7_reflection_fails_open (.ok "no json here") (7 / 10)
      (Or.inr ⟨"no json here", rfl, rfl⟩)).1⟩

/-- C10: the loop body is not total in the response content — when the
extracted JSON value is a non-empty non-map (here the JSON array `[1, 2]`),
`parsed.get("thought", "")` raises `AttributeError` and `run_react_loop`
propagates it instead of skipping the iteration; `_extract_json` indeed
hands the loop a non-dict value despite its `dict | None` annotation. -/
theorem c10_loop_crashes_on_nonmap_json :
    run_react_loop [] c10llm 3 =
      .error "AttributeError: \x27list\x27 object has no attribute \x27get\x27" ∧
    extract_json "[1, 2]" = some (.arr [.num 1, .num 2]) :=
  ⟨rfl, rfl⟩

/-- C5 counterexample: on a response holding two JSON objects joined by
prose, tier (c) as implemented takes the substring from the first `{` to
the last `}` (which does not parse), so extraction returns nothing — while
the claim's tier (c), "the first brace-balanced substring", parses and
returns the first object.  The claim as stated is therefore false on this
input. -/
theorem c5_tier_c_counterexample :
    extract_json "\x7b\"a\": 1\x7d and \x7b\"b\": 2\x7d" = none ∧
    first_balanced_substring ("\x7b\"a\": 1\x7d and \x7b\"b\": 2\x7d").data =
      some ("\x7b\"a\": 1\x7d").data ∧
    extract_json_spec "\x7b\"a\": 1\x7d and \x7b\"b\": 2\x7d" =
      some (.obj [("a", .num 1)]) :=
  ⟨rfl, rfl, rfl⟩

/-- C5 (amended): extraction tries exactly three tiers in order, returning
the first that parses — (a) the lazily matched fenced-block group, (b) the
entire stripped response, (c) the substring from the first opening brace
to the last closing brace (not the first brace-balanced substring); and a
fenced JSON block surrounded by prose yields exactly the fenced object. -/
theorem c5_extract_json_three_tiers :
    (∀ s g v, searchFence s.data = some g → loads (String.mk g) = some v →
      extract_json s = some v) ∧
    (∀ s v, (∀ g, searchFence s.data = some g → loads (String.mk g) = none) →
      loads (pyStrip s) = some v → extract_json s = some v) ∧
    (∀ s, (∀ g, searchFence s.data = some g → loads (String.mk g) = none) →
      loads (pyStrip s) = none →
      extract_json s = (tierCSub s.data).bind (fun g => loads (String.mk g))) ∧
    extract_json "prose before ```json\n\x7b\"a\": 1\x7d\n``` prose after" =
      some (.obj [("a", .num 1)]) := by
  refine ⟨?_, ?_, ?_, rfl⟩
  · intro s g v hg hv
    simp only [extract_json, hg, hv]
  · intro s v hg hv
    cases hf : searchFence s.data with
    | none => simp only [extract_json, extractJsonRest, hf, hv]
    | some g => simp only [extract_json, extractJsonRest, hf, hg g hf, hv]
  · intro s hg hv
    cases hf : searchFence s.data with
    | none =>
      simp only [extract_json, extractJsonRest, hf, hv]
      cases tierCSub s.data <;> rfl
    | some g =>
      simp only [extract_json, extractJsonRest, hf, hg g hf, hv]
      cases tierCSub s.data <;> rfl

/-- Witness for C5 (amended): a bare object with surrounding whitespace is
parsed by tier (b). -/
theorem c5_extract_json_three_tiers_witness :
    extract_json "  \x7b\"w\": 3\x7d " = some (.obj [("w", .num 3)]) :=
  c5_extract_json_three_tiers.2.1 "  \x7b\"w\": 3\x7d " (.obj [("w", .num 3)])
    (fun _ h => by exact Option.noConfusion h) rfl

/-- A successfully constructed report satisfies the sentiment and findings
bounds (the pydantic field validation of `AnalysisReport`). -/
theorem mkAnalysisReport_ok {t : String} {s : Json} {q : Rat}
    {f tu : List String} {srcs : List Json} {rep : AnalysisReport}
    (h : mkAnalysisReport t s q f tu srcs = .ok rep) :
    -1 ≤ rep.sentiment_score ∧ rep.sentiment_score ≤ 1 ∧
    1 ≤ rep.key_findings.length ∧ rep.key_findings.length ≤ 5 := by
  unfold mkAnalysisReport at h
  cases s with
  | str str =>
    simp only at h
    split at h
    · split at h
      · rename_i hb
        cases h
        exact ⟨hb.1, hb.2.1, hb.2.2.1, hb.2.2.2⟩
      · exact Except.noConfusion h
    · exact Except.noConfusion h
  | null => exact Except.noConfusion h
  | bool b => exact Except.noConfusion h
  | num n => exact Except.noConfusion h
  | arr xs => exact Except.noConfusion h
  | obj fs => exact Except.noConfusion h

/-- Every `.ok` outcome of the orchestrator's attempt loop went through
`mkAnalysisReport`, hence satisfies the report invariants. -/
theorem runAgentAux_ok_bounds {loopRun : Nat → Except String ReActResult}
    {reflect : Nat → ReflectionResult} {ticker : String} {er : Bool}
    {mr : Nat} :
    ∀ remaining lastErr rep,
      (runAgentAux loopRun reflect ticker er mr remaining lastErr).result = .ok rep →
      -1 ≤ rep.sentiment_score ∧ rep.sentiment_score ≤ 1 ∧
      1 ≤ rep.key_findings.length ∧ rep.key_findings.length ≤ 5 := by
  intro remaining
  induction remaining with
  | zero =>
    intro lastErr rep h
    exact Except.noConfusion h
  | succ n ih =>
    intro lastErr rep h
    simp only [runAgentAux] at h
    cases hl : loopRun (mr - n) with
    | error e =>
      rw [hl] at h
      exact Except.noConfusion h
    | ok rr =>
      rw [hl] at h
      simp only at h
      split at h
      · exact ih _ _ h
      · split at h
        · exact ih _ _ h
        · rename_i fin _
          split at h
          · exact ih _ _ h
          · split at h
            · rename_i ffs
              split at h
              · exact Except.noConfusion h
              · split at h
                · split at h
                  · exact ih _ _ h
                  · exact mkAnalysisReport_ok h
                · exact mkAnalysisReport_ok h
            · exact Except.noConfusion h

/-- C1: every `AnalysisReport` the orchestrator returns — from `run_agent`
and hence from `run_quick_analysis` — has a sentiment score in `[-1, 1]`
and between 1 and 5 key findings, for every final-answer map the loop can
produce (the sentiment is clamped, findings are coerced and truncated, and
a placeholder finding replaces an empty list). -/
theorem c1_report_invariants (loopRun : Nat → Except String ReActResult)
    (reflect : Nat → ReflectionResult) (ticker : String) (er : Bool)
    (mr : Nat) :
    (∀ rep, run_agent loopRun reflect ticker er mr = .ok rep →
      -1 ≤ rep.sentiment_score ∧ rep.sentiment_score ≤ 1 ∧
      1 ≤ rep.key_findings.length ∧ rep.key_findings.length ≤ 5) ∧
    (∀ rep, run_quick_analysis loopRun ticker = .ok rep →
      -1 ≤ rep.sentiment_score ∧ rep.sentiment_score ≤ 1 ∧
      1 ≤ rep.key_findings.length ∧ rep.key_findings.length ≤ 5) := by
  constructor
  · intro rep h
    exact runAgentAux_ok_bounds _ _ _ h
  · intro rep h
    exact runAgentAux_ok_bounds _ _ _ h

/-- Witness for C1: a final answer with sentiment `7` yields a report with
sentiment clamped to `1` and one finding. -/
theorem c1_report_invariants_witness :
    -1 ≤ c1rep.sentiment_score ∧ c1rep.sentiment_score ≤ 1 ∧
    1 ≤ c1rep.key_findings.length ∧ c1rep.key_findings.length ≤ 5 :=
  (c1_report_invariants c1Loop rejectReflect "TSLA" false 0).1 c1rep rfl

/-- An iteration whose response parses to nothing is skipped. -/
theorem react_iteration_skip {tools : Registry} {resp : String}
    (hx : extract_json resp = none) (stepNum : Nat) (tu : List String)
    (srcs : List Json) :
    react_iteration tools (.ok resp) stepNum tu srcs = .skip := by
  simp only [react_iteration, hx]

/-- If every remaining response yields no JSON, the loop runs the budget
down and returns the exhausted result with untouched accumulators. -/
theorem runReactLoopAux_all_skip {tools : Registry}
    {llm : Nat → Except String String} {N : Nat} :
    ∀ remaining steps tu srcs, remaining ≤ N →
      (∀ i, N - remaining < i → i ≤ N → ∃ s, llm i = .ok s ∧ extract_json s = none) →
      runReactLoopAux tools llm N remaining steps tu srcs =
        .ok { success := false, steps := steps, tools_used := tu.dedup,
              sources := srcs,
              error := some ("Analysis incomplete after " ++ toString N ++ " steps") } := by
  intro remaining
  induction remaining with
  | zero => intro steps tu srcs _ _; rfl
  | succ n ih =>
    intro steps tu srcs hle hskip
    obtain ⟨s, hs, hx⟩ := hskip (N - n) (by omega) (by omega)
    have hstep : react_iteration tools (llm (N - n)) (N - n) tu srcs = .skip := by
      rw [hs]
      exact react_iteration_skip hx _ _ _
    simp only [runReactLoopAux, hstep]
    exact ih steps tu srcs (by omega) (fun i h1 h2 => hskip i (by omega) h2)

/-- The loop consults the model only at steps `1..N`. -/
theorem runReactLoopAux_agree {tools : Registry} {N : Nat}
    {llm₁ llm₂ : Nat → Except String String} :
    ∀ remaining steps tu srcs, remaining ≤ N →
      (∀ i, N - remaining < i → i ≤ N → llm₁ i = llm₂ i) →
      runReactLoopAux tools llm₁ N remaining steps tu srcs =
        runReactLoopAux tools llm₂ N remaining steps tu srcs := by
  intro remaining
  induction remaining with
  | zero => intro steps tu srcs _ _; rfl
  | succ n ih =>
    intro steps tu srcs hle hag
    have he : llm₁ (N - n) = llm₂ (N - n) := hag _ (by omega) (by omega)
    simp only [runReactLoopAux, he]
    cases react_iteration tools (llm₂ (N - n)) (N - n) tu srcs with
    | skip => exact ih _ _ _ (by omega) (fun i h1 h2 => hag i (by omega) h2)
    | record step tu' srcs' =>
      exact ih _ _ _ (by omega) (fun i h1 h2 => hag i (by omega) h2)
    | finalize step ans => rfl
    | llmFail msg => rfl
    | crash msg => rfl

/-- C2: for a run with step budget `N`, a response from which no JSON is
extracted skips the iteration (no step appended) without terminating the
loop, while still consuming one budget slot: if all `N` responses fail to
parse, the loop returns an unsuccessful result with the exhaustion error
and an empty step list.  Moreover the loop never executes more than `N`
iterations: its outcome depends only on the model's responses at steps
`1..N`. -/
theorem c2_react_budget (tools : Registry) (N : Nat)
    (llm : Nat → Except String String)
    (h : ∀ i, 1 ≤ i → i ≤ N → ∃ s, llm i = .ok s ∧ extract_json s = none) :
    run_react_loop tools llm N =
      .ok { success := false, steps := [], tools_used := [], sources := [],
            error := some ("Analysis incomplete after " ++ toString N ++ " steps") } ∧
    ∀ llm₁ llm₂ : Nat → Except String String,
      (∀ i, 1 ≤ i → i ≤ N → llm₁ i = llm₂ i) →
      run_react_loop tools llm₁ N = run_react_loop tools llm₂ N := by
  constructor
  · exact runReactLoopAux_all_skip N [] [] [] le_rfl
      (fun i h1 h2 => h i (by omega) h2)
  · intro llm₁ llm₂ hag
    exact runReactLoopAux_agree N [] [] [] le_rfl
      (fun i h1 h2 => hag i (by omega) h2)

/-- Witness for C2: three unparseable responses exhaust a budget of 3. -/
theorem c2_react_budget_witness :
    run_react_loop [] (fun _ => .ok "no json") 3 =
      .ok { success := false, steps := [], tools_used := [], sources := [],
            error := some "Analysis incomplete after 3 steps" } :=
  (c2_react_budget [] 3 (fun _ => .ok "no json")
    (fun _ _ _ => ⟨"no json", rfl, rfl⟩)).1

/-- A row lookup commutes with a ticker-preserving row update. -/
theorem get_monitor_map (st : MonitorStore) (t : String) (f : Monitor → Monitor)
    (hf : ∀ m, (f m).ticker = m.ticker) :
    get_monitor (st.map f) t = (get_monitor st t).map f := by
  unfold get_monitor
  induction st with
  | nil => rfl
  | cons m rest ih =>
    simp only [List.map_cons, List.find?_cons, hf]
    by_cases hm : m.ticker = pyUpper t
    · simp [hm]
    · simp only [decide_eq_false hm]
      exact ih

/-- A found row matches the uppercased key. -/
theorem get_monitor_ticker {st : MonitorStore} {t : String} {m : Monitor}
    (h : get_monitor st t = some m) : m.ticker = pyUpper t := by
  unfold get_monitor at h
  simpa using List.find?_some h

/-- `update_last_run` rewrites only the timestamps of the matching row. -/
theorem get_update_last_run {st : MonitorStore} {t0 : String} {m : Monitor}
    (t : String) (l n : Rat) (h : get_monitor st t0 = some m) :
    get_monitor (update_last_run st t l n) t0 =
      some (if m.ticker = pyUpper t
            then { m with last_run := some l, next_run := some n } else m) := by
  unfold update_last_run
  rw [get_monitor_map st t0 _
    (fun x => by by_cases hx : x.ticker = pyUpper t <;> simp [hx]), h]
  rfl

/-- `add_seen_articles` rewrites only the seen list of the matching row. -/
theorem get_add_seen_articles {st : MonitorStore} {t0 : String} {m : Monitor}
    (t : String) (hs : List String) (h : get_monitor st t0 = some m) :
    get_monitor (add_seen_articles st t hs) t0 =
      some (if m.ticker = pyUpper t
            then { m with seen_article_hashes := (m.seen_article_hashes ++ hs).dedup }
            else m) := by
  unfold add_seen_articles
  rw [get_monitor_map st t0 _
    (fun x => by by_cases hx : x.ticker = pyUpper t <;> simp [hx]), h]
  rfl

/-- `stop_monitor` rewrites only the flag and next run of the matching row. -/
theorem get_stop_monitor {st : MonitorStore} {t0 : String} {m : Monitor}
    (t : String) (h : get_monitor st t0 = some m) :
    get_monitor (stop_monitor st t) t0 =
      some (if m.ticker = pyUpper t
            then { m with is_active := false, next_run := none } else m) := by
  unfold stop_monitor
  rw [get_monitor_map st t0 _
    (fun x => by by_cases hx : x.ticker = pyUpper t <;> simp [hx]), h]
  rfl

/-- `create_monitor` never touches the seen list of an existing row. -/
theorem get_create_monitor {st : MonitorStore} {t0 : String} {m : Monitor}
    (t : String) (iv nr : Rat) (h : get_monitor st t0 = some m) :
    ∃ m', get_monitor (create_monitor st t iv nr) t0 = some m' ∧
      m'.seen_article_hashes = m.seen_article_hashes := by
  unfold create_monitor
  by_cases hex : (get_monitor st t).isSome
  · simp only [hex, if_true]
    rw [get_monitor_map st t0 _
      (fun x => by by_cases hx : x.ticker = pyUpper t <;> simp [hx]), h]
    by_cases hm : m.ticker = pyUpper t
    · refine ⟨{ m with interval_hours := iv, next_run := some nr, is_active := true },
        ?_, rfl⟩
      simp [hm]
    · refine ⟨m, ?_, rfl⟩
      simp [hm]
  · simp only [hex, if_false]
    refine ⟨m, ?_, rfl⟩
    unfold get_monitor at h ⊢
    simp [List.find?_append, h]

/-- C8: the persisted seen-fingerprint set never loses an entry:
`add_seen_articles` turns the matching row's list into the union of the old
entries and the added hashes (so the old set is contained in the new), and
no update of timestamps, stop, or create-or-update of an existing subject
changes any row's seen list. -/
theorem c8_seen_set_monotone :
    (∀ (st : MonitorStore) (t : String) (hs : List String) (m : Monitor),
      get_monitor st t = some m →
      get_monitor (add_seen_articles st t hs) t =
        some { m with seen_article_hashes := (m.seen_article_hashes ++ hs).dedup } ∧
      ((m.seen_article_hashes ++ hs).dedup).toFinset =
        m.seen_article_hashes.toFinset ∪ hs.toFinset) ∧
    (∀ (st : MonitorStore) (t t0 : String) (hs : List String) (m : Monitor),
      get_monitor st t0 = some m →
      ∃ m', get_monitor (add_seen_articles st t hs) t0 = some m' ∧
        m.seen_article_hashes.toFinset ⊆ m'.seen_article_hashes.toFinset) ∧
    (∀ (st : MonitorStore) (t t0 : String) (l n : Rat) (m : Monitor),
      get_monitor st t0 = some m →
      ∃ m', get_monitor (update_last_run st t l n) t0 = some m' ∧
        m'.seen_article_hashes = m.seen_article_hashes) ∧
    (∀ (st : MonitorStore) (t t0 : String) (m : Monitor),
      get_monitor st t0 = some m →
      ∃ m', get_monitor (stop_monitor st t) t0 = some m' ∧
        m'.seen_article_hashes = m.seen_article_hashes) ∧
    (∀ (st : MonitorStore) (t t0 : String) (iv nr : Rat) (m : Monitor),
      get_monitor st t0 = some m →
      ∃ m', get_monitor (create_monitor st t iv nr) t0 = some m' ∧
        m'.seen_article_hashes = m.seen_article_hashes) := by
  refine ⟨?_, ?_, ?_, ?_, ?_⟩
  · intro st t hs m h
    have ht := get_monitor_ticker h
    refine ⟨by rw [get_add_seen_articles t hs h, if_pos ht], ?_⟩
    ext a
    simp [List.mem_dedup]
  · intro st t t0 hs m h
    rw [get_add_seen_articles t hs h]
    by_cases hm : m.ticker = pyUpper t
    · refine ⟨_, by rw [if_pos hm], ?_⟩
      simp only [if_pos hm]
      intro a ha
      simp only [List.mem_toFinset, List.mem_dedup, List.mem_append] at *
      exact Or.inl ha
    · exact ⟨_, by rw [if_neg hm], by simp [hm]⟩
  · intro st t t0 l n m h
    rw [get_update_last_run t l n h]
    by_cases hm : m.ticker = pyUpper t
    · exact ⟨_, by rw [if_pos hm], by simp [hm]⟩
    · exact ⟨_, by rw [if_neg hm], by simp [hm]⟩
  · intro st t t0 m h
    rw [get_stop_monitor t h]
    by_cases hm : m.ticker = pyUpper t
    · exact ⟨_, by rw [if_pos hm], by simp [hm]⟩
    · exact ⟨_, by rw [if_neg hm], by simp [hm]⟩
  · intro st t t0 iv nr m h
    exact get_create_monitor t iv nr h

/-- The partition loop on well-formed articles: it never raises, its count
is the number of items whose fingerprint is not in the sampled seen set,
and its hash set collects every such fingerprint. -/
theorem partitionArticles_spec {md5hex : String → String} {seen : List String} :
    ∀ (items : List Json) (k : Nat) (hs : List String),
      (∀ a ∈ items, ∃ afs, a = Json.obj afs) →
      (partitionArticles md5hex seen items k hs).2.2 = none ∧
      (partitionArticles md5hex seen items k hs).1 =
        k + (items.filter
          (fun a => !decide (article_fingerprint md5hex a ∈ seen))).length ∧
      (∀ x ∈ hs, x ∈ (partitionArticles md5hex seen items k hs).2.1) ∧
      (∀ a ∈ items, article_fingerprint md5hex a ∉ seen →
        article_fingerprint md5hex a ∈ (partitionArticles md5hex seen items k hs).2.1) := by
  intro items
  induction items with
  | nil =>
    intro k hs _
    refine ⟨rfl, by simp [partitionArticles], ?_, by simp⟩
    intro x hx
    simpa [partitionArticles] using hx
  | cons a rest ih =>
    intro k hs hobj
    obtain ⟨afs, rfl⟩ := hobj a (by simp)
    have hrest : ∀ b ∈ rest, ∃ bfs, b = Json.obj bfs :=
      fun b hb => hobj b (by simp [hb])
    by_cases hfp : article_fingerprint md5hex (Json.obj afs) ∈ seen
    · have hred : partitionArticles md5hex seen (Json.obj afs :: rest) k hs =
          partitionArticles md5hex seen rest k hs := by
        simp only [partitionArticles]
        rw [if_pos (show article_fingerprint md5hex (Json.obj afs) ∈ seen from hfp)]
      obtain ⟨h1, h2, h3, h4⟩ := ih k hs hrest
      refine ⟨by rw [hred]; exact h1, ?_, ?_, ?_⟩
      · rw [hred, h2]
        simp [hfp]
      · intro x hx
        rw [hred]
        exact h3 x hx
      · intro b hb hbn
        rcases List.mem_cons.mp hb with rfl | hb'
        · exact absurd hfp hbn
        · rw [hred]
          exact h4 b hb' hbn
    · set hs' := if article_fingerprint md5hex (Json.obj afs) ∈ hs then hs
        else article_fingerprint md5hex (Json.obj afs) :: hs with hhs'
      have hred : partitionArticles md5hex seen (Json.obj afs :: rest) k hs =
          partitionArticles md5hex seen rest (k + 1) hs' := by
        simp only [partitionArticles]
        rw [if_neg (show ¬article_fingerprint md5hex (Json.obj afs) ∈ seen from hfp)]
      obtain ⟨h1, h2, h3, h4⟩ := ih (k + 1) hs' hrest
      refine ⟨by rw [hred]; exact h1, ?_, ?_, ?_⟩
      · rw [hred, h2]
        simp [hfp]
        omega
      · intro x hx
        rw [hred]
        refine h3 x ?_
        by_cases hin : article_fingerprint md5hex (Json.obj afs) ∈ hs <;>
          simp [hhs', hin, hx]
      · intro b hb hbn
        rcases List.mem_cons.mp hb with rfl | hb'
        · rw [hred]
          refine h3 _ ?_
          by_cases hin : article_fingerprint md5hex (Json.obj afs) ∈ hs <;>
            simp [hhs', hin]
        · rw [hred]
          exact h4 b hb' hbn

/-- C4: a monitor firing that fetches items of which fewer than the
configured minimum are new (newness decided by fingerprint membership in
the subject's seen set) creates no alert, still advances the subject's
`last_run`/`next_run` to `now` and `now + interval`, and leaves the
persisted seen set containing the fingerprints of all fetched items — the
already-seen ones were members before and the new ones are merged in. -/
theorem c4_monitor_below_threshold (md5hex : String → String) (minArts : Nat)
    (news_r : ToolResult) (analysis : Except String AnalysisReport)
    (alert_id ticker : String) (now : Rat) (st : MonitorStore)
    (alerts : List Alert) (m : Monitor) (dfs : List (String × Json))
    (items : List Json)
    (hm : get_monitor st ticker = some m)
    (hact : m.is_active = true)
    (hsucc : news_r.success = true)
    (hdata : news_r.data = .obj dfs)
    (harts : objGet dfs "articles" = some (.arr items))
    (hne : items ≠ [])
    (hobj : ∀ a ∈ items, ∃ afs, a = Json.obj afs)
    (hK : (items.filter (fun a =>
      !decide (article_fingerprint md5hex a ∈ m.seen_article_hashes))).length
        < minArts) :
    (monitoring_task md5hex minArts (.ok news_r) analysis alert_id ticker now
      st alerts).2 = alerts ∧
    ∃ m', get_monitor (monitoring_task md5hex minArts (.ok news_r) analysis
        alert_id ticker now st alerts).1 ticker = some m' ∧
      m'.last_run = some now ∧
      m'.next_run = some (now + m.interval_hours) ∧
      ∀ a ∈ items, article_fingerprint md5hex a ∈ m'.seen_article_hashes := by
  obtain ⟨hnone, hcount, hmemhs, hmem⟩ :=
    @partitionArticles_spec md5hex m.seen_article_hashes items 0 [] hobj
  obtain ⟨K, HS, E, hPeq⟩ : ∃ K HS E,
      partitionArticles md5hex m.seen_article_hashes items 0 [] = (K, HS, E) :=
    ⟨_, _, _, rfl⟩
  rw [hPeq] at hnone hcount hmem
  simp only at hnone hcount hmem
  subst hnone
  have hempty : items.isEmpty = false := by
    cases items with
    | nil => exact absurd rfl hne
    | cons a rest => rfl
  have hKK : K < minArts := by omega
  have hticker : m.ticker = pyUpper ticker := get_monitor_ticker hm
  have hrun : monitoring_task md5hex minArts (.ok news_r) analysis alert_id
      ticker now st alerts =
      (if HS.isEmpty
       then update_last_run st ticker now (now + m.interval_hours)
       else add_seen_articles
         (update_last_run st ticker now (now + m.interval_hours)) ticker HS,
       alerts) := by
    simp [monitoring_task, hm, hact, hsucc, hdata, harts, hempty, hPeq, hKK]
  rw [hrun]
  refine ⟨rfl, ?_⟩
  have hm1 : get_monitor (update_last_run st ticker now
      (now + m.interval_hours)) ticker =
      some { m with last_run := some now,
                    next_run := some (now + m.interval_hours) } := by
    rw [get_update_last_run ticker now (now + m.interval_hours) hm, if_pos hticker]
  by_cases hPE : HS.isEmpty
  · refine ⟨?_, ?_, ?_, ?_, ?_⟩
    · exact { m with last_run := some now, next_run := some (now + m.interval_hours) }
    · rw [if_pos hPE]
      exact hm1
    · rfl
    · rfl
    · intro a ha
      by_cases hseen : article_fingerprint md5hex a ∈ m.seen_article_hashes
      · exact hseen
      · exact absurd (hmem a ha hseen) (by simp [List.isEmpty_iff.mp hPE])
  · refine ⟨?_, ?_, ?_, ?_, ?_⟩
    · exact { m with last_run := some now, next_run := some (now + m.interval_hours), seen_article_hashes := (m.seen_article_hashes ++ HS).dedup }
    · rw [if_neg hPE, get_add_seen_articles ticker _ hm1, if_pos hticker]
    · rfl
    · rfl
    · intro a ha
      simp only [List.mem_dedup, List.mem_append]
      by_cases hseen : article_fingerprint md5hex a ∈ m.seen_article_hashes
      · exact Or.inl hseen
      · exact Or.inr (hmem a ha hseen)

/-- Witness for C4: firing the TSLA fixture (one already-seen, one new
article; threshold 5) creates no alert, advances the clock, and leaves
both fingerprints in the seen set. -/
theorem c4_monitor_below_threshold_witness :
    (monitoring_task c4md5 5 (.ok c4news) (.error "unused") "aid" "TSLA" 100
      c4store []).2 = [] ∧
    ∃ m', get_monitor (monitoring_task c4md5 5 (.ok c4news) (.error "unused")
        "aid" "TSLA" 100 c4store []).1 "TSLA" = some m' ∧
      m'.last_run = some 100 ∧
      m'.next_run = some (100 + c4row.interval_hours) ∧
      ∀ a ∈ c4items, article_fingerprint c4md5 a ∈ m'.seen_article_hashes :=
  c4_monitor_below_threshold c4md5 5 c4news (.error "unused") "aid" "TSLA" 100
    c4store [] c4row [("articles", .arr c4items)] c4items rfl rfl rfl rfl rfl
    (by simp [c4items])
    (by
      intro a ha
      simp only [c4items, List.mem_cons, List.not_mem_nil, or_false] at ha
      rcases ha with rfl | rfl
      · exact ⟨_, rfl⟩
      · exact ⟨_, rfl⟩)
    (by decide)

/-- Under a never-accepting gate and fault-free attempts, the orchestrator
loop burns every attempt and its outcome is that of the final attempt,
independently of the accumulated error note. -/
theorem c3_aux {loopRun : Nat → Except String ReActResult}
    {reflect : Nat → ReflectionResult} {ticker : String} {mr : Nat}
    (hga : ∀ a, (reflect a).is_acceptable.truthy = false)
    (hok : ∀ a, ∃ rr, loopRun a = .ok rr)
    (hwf : ∀ a rr, loopRun a = .ok rr → rr.success = true →
      ∀ fin, rr.final_answer = some fin → fin.truthy = true →
      ∃ ffs, fin = Json.obj ffs ∧
        ∃ q, pyFloat ((objGet ffs "sentiment_score").getD (.num 0)) = .ok q) :
    ∀ k lastErr, k ≤ mr →
      runAgentAux loopRun reflect ticker true mr (k + 1) lastErr =
        ⟨(runAgentAux loopRun reflect ticker true mr 1 none).result, k + 1⟩ := by
  intro k
  induction k with
  | zero =>
    intro lastErr _
    obtain ⟨rr, hrr⟩ := hok mr
    have hmr : mr - 0 = mr := Nat.sub_zero mr
    by_cases hs : rr.success = false
    · simp [runAgentAux, hmr, hrr, hs, bumpRuns]
    · cases hfin : rr.final_answer with
      | none => simp [runAgentAux, hmr, hrr, hs, hfin, bumpRuns]
      | some fin =>
        by_cases hft : fin.truthy = true
        · obtain ⟨ffs, hobj, q, hq⟩ :=
            hwf mr rr hrr (by revert hs; cases rr.success <;> simp) fin hfin hft
          subst hobj
          simp [runAgentAux, hmr, hrr, hs, hfin, hft, hq, hga mr, bumpRuns]
        · have hft' : fin.truthy = false := by
            revert hft; cases fin.truthy <;> simp
          simp [runAgentAux, hmr, hrr, hs, hfin, hft', bumpRuns]
  | succ n ih =>
    intro lastErr hk
    obtain ⟨rr, hrr⟩ := hok (mr - (n + 1))
    have hlt : mr - (n + 1) < mr := by omega
    by_cases hs : rr.success = false
    · have hih := ih (some (loopFailCause rr)) (by omega)
      rw [runAgentAux]
      simp [hrr, hs, bumpRuns, hih]
    · cases hfin : rr.final_answer with
      | none =>
        have hih := ih (some "No final answer generated") (by omega)
        rw [runAgentAux]
        simp [hrr, hs, hfin, bumpRuns, hih]
      | some fin =>
        by_cases hft : fin.truthy = true
        · obtain ⟨ffs, hobj, q, hq⟩ :=
            hwf (mr - (n + 1)) rr hrr
              (by revert hs; cases rr.success <;> simp) fin hfin hft
          subst hobj
          have hih := ih (some ("Quality score too low: " ++
            ratRepr (reflect (mr - (n + 1))).quality_score)) (by omega)
          rw [runAgentAux]
          simp [hrr, hs, hfin, hft, hq, hga (mr - (n + 1)), hlt, bumpRuns, hih]
        · have hft' : fin.truthy = false := by
            revert hft; cases fin.truthy <;> simp
          have hih := ih (some "No final answer generated") (by omega)
          rw [runAgentAux]
          simp [hrr, hs, hfin, hft', bumpRuns, hih]

/-- C3 counterexample: with reflection enabled, a gate that never accepts
and retry budget 1, a run whose first attempt reaches SUCCESS with a final
answer but whose second (last) attempt fails still raises — refuting
"it raises only when no attempt's Loop run returned SUCCESS with a final
answer". -/
theorem c3_counterexample :
    (c3CexLoop 0 = .ok c3okResult ∧ c3okResult.success = true ∧
      Option.map Json.truthy c3okResult.final_answer = some true ∧
      ∀ a, (rejectReflect a).is_acceptable.truthy = false) ∧
    run_agent c3CexLoop rejectReflect "TSLA" true 1 =
      .error "Analysis failed after 2 attempts: boom" :=
  ⟨⟨rfl, rfl, rfl, fun _ => rfl⟩, rfl⟩

/-- C3 (amended): with reflection enabled, a gate that never accepts and a
retry budget `R`, the orchestrator runs the loop exactly `R + 1` times; it
returns the last attempt's result without substituting the refined
summary when the last attempt's loop run returned SUCCESS with a truthy
final answer, and otherwise raises an error naming the last attempt's
cause and the attempt count `R + 1` — even when an earlier attempt had
succeeded. -/
theorem c3_reflection_retry_budget (loopRun : Nat → Except String ReActResult)
    (reflect : Nat → ReflectionResult) (ticker : String) (mr : Nat)
    (hga : ∀ a, (reflect a).is_acceptable.truthy = false)
    (hok : ∀ a, ∃ rr, loopRun a = .ok rr)
    (hwf : ∀ a rr, loopRun a = .ok rr → rr.success = true →
      ∀ fin, rr.final_answer = some fin → fin.truthy = true →
      ∃ ffs, fin = Json.obj ffs ∧
        ∃ q, pyFloat ((objGet ffs "sentiment_score").getD (.num 0)) = .ok q) :
    run_agent_runs loopRun reflect ticker true mr = mr + 1 ∧
    ∀ rrL, loopRun mr = .ok rrL →
      ((rrL.success = false ∨ rrL.final_answer = none ∨
        ∀ fin, rrL.final_answer = some fin → fin.truthy = false) →
        run_agent loopRun reflect ticker true mr =
          .error ("Analysis failed after " ++ toString (mr + 1) ++
            " attempts: " ++ lastAttemptCause rrL)) ∧
      ∀ fin ffs q, rrL.final_answer = some fin → fin.truthy = true →
        rrL.success = true → fin = Json.obj ffs →
        pyFloat ((objGet ffs "sentiment_score").getD (.num 0)) = .ok q →
        run_agent loopRun reflect ticker true mr =
          mkAnalysisReport ticker ((objGet ffs "analysis_summary").getD (.str ""))
            (max (-1) (min 1 q))
            (if (sanitizeFindings ((objGet ffs "key_findings").getD (.arr []))).isEmpty
             then [placeholderFinding]
             else sanitizeFindings ((objGet ffs "key_findings").getD (.arr [])))
            rrL.tools_used rrL.sources := by
  have hstep := @c3_aux loopRun reflect ticker mr hga hok hwf mr none le_rfl
  constructor
  · unfold run_agent_runs
    rw [hstep]
  · intro rrL hrrL
    have hmr : mr - 0 = mr := Nat.sub_zero mr
    have hrun : run_agent loopRun reflect ticker true mr =
        (runAgentAux loopRun reflect ticker true mr 1 none).result := by
      unfold run_agent
      rw [hstep]
    constructor
    · intro hfail
      rw [hrun]
      rcases hfail with hs | hfin | hft
      · simp [runAgentAux, hmr, hrrL, hs, bumpRuns, lastAttemptCause, pyStrOpt]
      · have hs' : (rrL.success = false) ∨ rrL.success = true := by
          cases rrL.success <;> simp
        rcases hs' with hs | hs
        · simp [runAgentAux, hmr, hrrL, hs, bumpRuns, lastAttemptCause, pyStrOpt]
        · simp [runAgentAux, hmr, hrrL, hs, hfin, bumpRuns, lastAttemptCause, pyStrOpt]
      · have hs' : (rrL.success = false) ∨ rrL.success = true := by
          cases rrL.success <;> simp
        rcases hs' with hs | hs
        · simp [runAgentAux, hmr, hrrL, hs, bumpRuns, lastAttemptCause, pyStrOpt]
        · cases hfin : rrL.final_answer with
          | none => simp [runAgentAux, hmr, hrrL, hs, hfin, bumpRuns, lastAttemptCause, pyStrOpt]
          | some fin =>
            simp [runAgentAux, hmr, hrrL, hs, hfin, hft fin hfin, bumpRuns,
              lastAttemptCause, pyStrOpt]
    · intro fin ffs q hfin hft hs hobj hq
      subst hobj
      rw [hrun]
      simp [runAgentAux, hmr, hrrL, hs, hfin, hft, hq, hga mr, bumpRuns]

/-- Witness for C3 (amended): retry budget 1 with every attempt reaching a
final answer and the gate always rejecting — two loop runs and the last
(unrefined) report is returned. -/
theorem c3_reflection_retry_budget_witness :
    run_agent_runs c3WitLoop rejectReflect "TSLA" true 1 = 2 ∧
    run_agent c3WitLoop rejectReflect "TSLA" true 1 =
      .ok { company_ticker := "TSLA", analysis_summary := "s",
            sentiment_score := 0, key_findings := ["f"], tools_used := [],
            citation_sources := [] } := by
  have hwf : ∀ a rr, c3WitLoop a = .ok rr → rr.success = true →
      ∀ fin, rr.final_answer = some fin → fin.truthy = true →
      ∃ ffs, fin = Json.obj ffs ∧
        ∃ q, pyFloat ((objGet ffs "sentiment_score").getD (.num 0)) = .ok q := by
    intro a rr h _ fin hfin _
    have hrr : c3okResult = rr := by
      simpa [c3WitLoop] using h
    subst hrr
    have : Json.obj [("analysis_summary", .str "s"), ("sentiment_score", .num 0),
        ("key_findings", .arr [.str "f"])] = fin := by
      simpa [c3okResult] using hfin
    subst this
    exact ⟨_, rfl, 0, rfl⟩
  have h := c3_reflection_retry_budget c3WitLoop rejectReflect "TSLA" 1
    (fun _ => rfl) (fun _ => ⟨c3okResult, rfl⟩) hwf
  refine ⟨h.1, ?_⟩
  have h2 := (h.2 c3okResult rfl).2
    (Json.obj [("analysis_summary", .str "s"), ("sentiment_score", .num 0),
      ("key_findings", .arr [.str "f"])])
    [("analysis_summary", .str "s"), ("sentiment_score", .num 0),
      ("key_findings", .arr [.str "f"])]
    0 rfl rfl rfl rfl rfl
  exact h2

/-- An object with a present field is truthy. -/
theorem objGet_some_truthy {fs : List (String × Json)} {k : String} {v : Json}
    (h : objGet fs k = some v) : Json.truthy (.obj fs) = true := by
  cases fs with
  | nil => exact Option.noConfusion h
  | cons p rest => rfl

/-- On well-formed article lists the URL collection never raises and
returns exactly the articles' URLs, in order. -/
theorem collectUrls_wf : ∀ (items : List Json),
    (∀ a ∈ items, ∃ afs u, a = Json.obj afs ∧
      objGet afs "url" = some (.str u) ∧ u ≠ "") →
    collectUrls items = ((items.filterMap spec_url_of).map Json.str, none) := by
  intro items
  induction items with
  | nil => intro _; rfl
  | cons a rest ih =>
    intro h
    obtain ⟨afs, u, rfl, hurl, hne⟩ := h a (List.mem_cons_self a rest)
    have ihr := ih (fun b hb => h b (by simp [hb]))
    have htr : Json.truthy (.str u) = true := by
      simp [Json.truthy, hne]
    simp [collectUrls, hurl, ihr, htr, spec_url_of, hne]

/-- `execKnown` records a step in every branch (it models the caught
`try:` block). -/
theorem execKnown_record (tools : Registry) (aname : String) (stepNum : Nat)
    (th act inp : Json) (tu : List String) (srcs : List Json) :
    ∃ step tu' srcs',
      execKnown tools aname stepNum th act inp tu srcs =
        .record step tu' srcs' := by
  unfold execKnown
  cases inp <;> (try exact ⟨_, _, _, rfl⟩) <;>
    (simp only; repeat' split) <;> exact ⟨_, _, _, rfl⟩

/-- The dispatch bookkeeping of one known action agrees with the spec's
words: nothing on failure, the capability identifier and the news URLs on
success. -/
theorem execKnown_spec {tools : Registry} (hwf : WellFormedTools tools)
    {aname : String} {beh : Json → Except String ToolResult}
    (hlook : lookupTool tools aname = some beh) (stepNum : Nat)
    (th act inp : Json) (tu : List String) (srcs : List Json) :
    ∀ step tu' srcs',
      execKnown tools aname stepNum th act inp tu srcs = .record step tu' srcs' →
      (spec_dispatch tools aname inp = none ∧ tu' = tu ∧ srcs' = srcs) ∨
      (∃ id us, spec_dispatch tools aname inp = some (id, us) ∧
        tu' = tu ++ [id] ∧ srcs' = srcs ++ us.map Json.str) := by
  intro step tu' srcs' h
  cases inp with
  | obj ifs =>
    cases hbeh : beh (.obj ifs) with
    | error e =>
      have hre : registry_execute tools aname (.obj ifs) =
          { success := false, data := .null,
            error := some ("Tool execution failed: " ++ e) } := by
        simp [registry_execute, hlook, hbeh]
      have hE : execKnown tools aname stepNum th act (.obj ifs) tu srcs =
          .record ⟨stepNum, th, act, .obj ifs,
            some ("Tool error: " ++ ("Tool execution failed: " ++ e)),
            some ("Tool execution failed: " ++ e)⟩ tu srcs := by
        simp [execKnown, hre, pyStrOpt]
      rw [hE] at h
      cases h
      left
      exact ⟨by simp [spec_dispatch, hlook, hbeh], rfl, rfl⟩
    | ok r0 =>
      have hre : registry_execute tools aname (.obj ifs) = r0 := by
        simp [registry_execute, hlook, hbeh]
      by_cases hrs : r0.success = true
      · by_cases htk : aname = "ticker_extractor"
        · subst htk
          obtain ⟨dfs, mth, hdata, hmeth⟩ := hwf.1 beh hlook (.obj ifs) r0 hbeh hrs
          have htr : Json.truthy (Json.obj dfs) = true := objGet_some_truthy hmeth
          have hE : execKnown tools "ticker_extractor" stepNum th act
              (.obj ifs) tu srcs =
              .record ⟨stepNum, th, act, .obj ifs,
                some (format_observation (Json.obj dfs)), none⟩
                (tu ++ ["ticker_extractor:" ++
                  pyStr ((objGet dfs "method").getD (.str "unknown"))]) srcs := by
            simp [execKnown, hre, hrs, hdata, htr]
          rw [hE] at h
          cases h
          right
          refine ⟨_, [], ?_, rfl, by simp⟩
          simp [spec_dispatch, hlook, hbeh, hrs, spec_method, hdata]
        · by_cases hnw : aname = "news_retriever"
          · subst hnw
            obtain ⟨dfs, arts, hdata, harts, hurls⟩ :=
              hwf.2 beh hlook (.obj ifs) r0 hbeh hrs
            have htr : Json.truthy (Json.obj dfs) = true := objGet_some_truthy harts
            have hcu := collectUrls_wf arts hurls
            have hE : execKnown tools "news_retriever" stepNum th act
                (.obj ifs) tu srcs =
                .record ⟨stepNum, th, act, .obj ifs,
                  some (format_observation (Json.obj dfs)), none⟩
                  (tu ++ ["news_retriever"])
                  (srcs ++ (arts.filterMap spec_url_of).map Json.str) := by
              simp [execKnown, hre, hrs, hdata, htr, harts, iterArticles, hcu]
            rw [hE] at h
            cases h
            right
            refine ⟨_, _, ?_, rfl, rfl⟩
            simp [spec_dispatch, hlook, hbeh, hrs, spec_urls, hdata, harts]
          · have hE : execKnown tools aname stepNum th act (.obj ifs) tu srcs =
                .record ⟨stepNum, th, act, .obj ifs,
                  some (format_observation r0.data), none⟩
                  (tu ++ [aname]) srcs := by
              simp [execKnown, hre, hrs, decide_eq_false htk, decide_eq_false hnw]
            rw [hE] at h
            cases h
            right
            refine ⟨aname, [], ?_, rfl, by simp⟩
            simp [spec_dispatch, hlook, hbeh, hrs, htk, hnw]
      · have hE : execKnown tools aname stepNum th act (.obj ifs) tu srcs =
            .record ⟨stepNum, th, act, .obj ifs,
              some ("Tool error: " ++ pyStrOpt r0.error), r0.error⟩ tu srcs := by
          simp [execKnown, hre, hrs]
        rw [hE] at h
        cases h
        left
        refine ⟨?_, rfl, rfl⟩
        simp [spec_dispatch, hlook, hbeh, hrs]
  | null =>
    cases h
    exact Or.inl ⟨by simp [spec_dispatch, hlook], rfl, rfl⟩
  | bool b =>
    cases h
    exact Or.inl ⟨by simp [spec_dispatch, hlook], rfl, rfl⟩
  | num q =>
    cases h
    exact Or.inl ⟨by simp [spec_dispatch, hlook], rfl, rfl⟩
  | str s =>
    cases h
    exact Or.inl ⟨by simp [spec_dispatch, hlook], rfl, rfl⟩
  | arr xs =>
    cases h
    exact Or.inl ⟨by simp [spec_dispatch, hlook], rfl, rfl⟩

/-- One loop iteration agrees with the spec-side classification: skipped
iterations contribute nothing, recorded steps contribute exactly what the
spec's dispatch bookkeeping says, and a final answer stops the trace. -/
theorem iter_vs_spec {tools : Registry} (hwf : WellFormedTools tools)
    (resp : Except String String) (stepNum : Nat) (tu : List String)
    (srcs : List Json) :
    (react_iteration tools resp stepNum tu srcs = .skip →
      spec_step tools resp = .pass) ∧
    (∀ step tu' srcs',
      react_iteration tools resp stepNum tu srcs = .record step tu' srcs' →
      (spec_step tools resp = .pass ∧ tu' = tu ∧ srcs' = srcs) ∨
      (∃ id us, spec_step tools resp = .contrib id us ∧ tu' = tu ++ [id] ∧
        srcs' = srcs ++ us.map Json.str)) ∧
    (∀ step ans,
      react_iteration tools resp stepNum tu srcs = .finalize step ans →
      spec_step tools resp = .stop) := by
  cases resp with
  | error e =>
    refine ⟨fun h => ?_, fun step tu' srcs' h => ?_, fun step ans h => ?_⟩ <;>
      simp [react_iteration] at h
  | ok response =>
    cases hx : extract_json response with
    | none =>
      refine ⟨fun _ => by simp [spec_step, hx], fun step tu' srcs' h => ?_,
        fun step ans h => ?_⟩ <;> simp [react_iteration, hx] at h
    | some parsed =>
      by_cases ht : parsed.truthy = true
      · cases parsed with
        | obj fields =>
          have hred : react_iteration tools (.ok response) stepNum tu srcs =
              (match (objGet fields "action").getD (.str "") with
               | .str aname =>
                 if aname = "final_answer" then
                   .finalize ⟨stepNum, (objGet fields "thought").getD (.str ""),
                     (objGet fields "action").getD (.str ""),
                     (objGet fields "action_input").getD (.obj []), none, none⟩
                     ((objGet fields "action_input").getD (.obj []))
                 else if registryContains tools aname then
                   execKnown tools aname stepNum
                     ((objGet fields "thought").getD (.str ""))
                     ((objGet fields "action").getD (.str ""))
                     ((objGet fields "action_input").getD (.obj [])) tu srcs
                 else
                   (let e := "Unknown tool: " ++ aname ++ ". Available tools: " ++
                     dumps (.arr ((list_tools tools).map Json.str));
                   .record ⟨stepNum, (objGet fields "thought").getD (.str ""),
                     (objGet fields "action").getD (.str ""),
                     (objGet fields "action_input").getD (.obj []), some e, some e⟩
                     tu srcs)
               | .arr xs => .crash ("TypeError: unhashable type: \x27" ++
                   pyTypeName (.arr xs) ++ "\x27")
               | .obj fs => .crash ("TypeError: unhashable type: \x27" ++
                   pyTypeName (.obj fs) ++ "\x27")
               | other =>
                 (let e := "Unknown tool: " ++ pyStr other ++ ". Available tools: " ++
                   dumps (.arr ((list_tools tools).map Json.str));
                 .record ⟨stepNum, (objGet fields "thought").getD (.str ""),
                   other, (objGet fields "action_input").getD (.obj []),
                   some e, some e⟩ tu srcs)) := by
            simp [react_iteration, hx, ht]
          have hsred : spec_step tools (.ok response) =
              (match (objGet fields "action").getD (.str "") with
               | .str aname =>
                 if aname = "final_answer" then SpecStep.stop
                 else
                   (match spec_dispatch tools aname
                     ((objGet fields "action_input").getD (.obj [])) with
                   | some (id, us) => SpecStep.contrib id us
                   | none => SpecStep.pass)
               | .arr _ => SpecStep.stop
               | .obj _ => SpecStep.stop
               | _ => SpecStep.pass) := by
            simp [spec_step, hx, ht]
          rw [hred]
          rw [hsred]
          cases haction : (objGet fields "action").getD (.str "") with
          | str aname =>
            by_cases hfa : aname = "final_answer"
            · subst hfa
              refine ⟨fun h => by simp at h, fun step tu' srcs' h => by simp at h,
                fun step ans h => by simp⟩
            · simp only [if_neg hfa]
              cases hlook : lookupTool tools aname with
              | none =>
                have hrc : registryContains tools aname = false := by
                  simp [registryContains, hlook]
                simp only [hrc, Bool.false_eq_true, if_false]
                refine ⟨fun h => by simp at h, fun step tu' srcs' h => ?_,
                  fun step ans h => by simp at h⟩
                left
                refine ⟨by simp [spec_dispatch, hlook], ?_, ?_⟩ <;> cases h <;> rfl
              | some beh =>
                have hrc : registryContains tools aname = true := by
                  simp [registryContains, hlook]
                simp only [hrc, if_true]
                refine ⟨fun h => ?_, fun step tu' srcs' h => ?_,
                  fun step ans h => ?_⟩
                · obtain ⟨s0, t0, u0, he⟩ := execKnown_record tools aname stepNum
                    ((objGet fields "thought").getD (.str ""))
                    (Json.str aname)
                    ((objGet fields "action_input").getD (.obj [])) tu srcs
                  rw [he] at h
                  exact IterOutcome.noConfusion h
                · rcases execKnown_spec hwf hlook stepNum
                    ((objGet fields "thought").getD (.str ""))
                    (Json.str aname)
                    ((objGet fields "action_input").getD (.obj [])) tu srcs
                    step tu' srcs' h with ⟨hd, htu, hsr⟩ | ⟨id, us, hd, htu, hsr⟩
                  · left
                    exact ⟨by simp [hd], htu, hsr⟩
                  · right
                    exact ⟨id, us, by simp [hd], htu, hsr⟩
                · obtain ⟨s0, t0, u0, he⟩ := execKnown_record tools aname stepNum
                    ((objGet fields "thought").getD (.str ""))
                    (Json.str aname)
                    ((objGet fields "action_input").getD (.obj [])) tu srcs
                  rw [he] at h
                  exact IterOutcome.noConfusion h
          | arr xs =>
            refine ⟨fun h => by simp at h, fun step tu' srcs' h => by simp at h,
              fun step ans h => by simp at h⟩
          | obj fs =>
            refine ⟨fun h => by simp at h, fun step tu' srcs' h => by simp at h,
              fun step ans h => by simp at h⟩
          | null =>
            refine ⟨fun h => by simp at h, fun step tu' srcs' h => ?_,
              fun step ans h => by simp at h⟩
            left
            refine ⟨rfl, ?_, ?_⟩ <;> cases h <;> rfl
          | bool b =>
            refine ⟨fun h => by simp at h, fun step tu' srcs' h => ?_,
              fun step ans h => by simp at h⟩
            left
            refine ⟨rfl, ?_, ?_⟩ <;> cases h <;> rfl
          | num q =>
            refine ⟨fun h => by simp at h, fun step tu' srcs' h => ?_,
              fun step ans h => by simp at h⟩
            left
            refine ⟨rfl, ?_, ?_⟩ <;> cases h <;> rfl
        | null =>
          simp [Json.truthy] at ht
        | bool b =>
          refine ⟨fun h => ?_, fun step tu' srcs' h => ?_, fun step ans h => ?_⟩ <;>
            simp [react_iteration, hx, ht] at h
        | num q =>
          refine ⟨fun h => ?_, fun step tu' srcs' h => ?_, fun step ans h => ?_⟩ <;>
            simp [react_iteration, hx, ht] at h
        | str s =>
          refine ⟨fun h => ?_, fun step tu' srcs' h => ?_, fun step ans h => ?_⟩ <;>
            simp [react_iteration, hx, ht] at h
        | arr xs =>
          refine ⟨fun h => ?_, fun step tu' srcs' h => ?_, fun step ans h => ?_⟩ <;>
            simp [react_iteration, hx, ht] at h
      · have ht' : parsed.truthy = false := by
          revert ht; cases parsed.truthy <;> simp
        refine ⟨fun _ => by simp [spec_step, hx, ht'], fun step tu' srcs' h => ?_,
          fun step ans h => ?_⟩ <;> simp [react_iteration, hx, ht'] at h

/-- The loop's accumulators refine the spec-side trace: on a successful
run the returned usage list is (up to the final deduplication) the trace's
identifier list and the returned sources are exactly the trace's URLs. -/
theorem runReactLoopAux_trace {tools : Registry}
    {llm : Nat → Except String String} {maxSteps : Nat}
    (hwf : WellFormedTools tools) :
    ∀ remaining steps tu srcs res,
      runReactLoopAux tools llm maxSteps remaining steps tu srcs = .ok res →
      res.success = true →
      res.tools_used.toFinset =
        (tu ++ (spec_trace tools llm maxSteps remaining).1).toFinset ∧
      res.sources = srcs ++
        ((spec_trace tools llm maxSteps remaining).2).map Json.str := by
  intro remaining
  induction remaining with
  | zero =>
    intro steps tu srcs res h hs
    cases h
    exact Bool.noConfusion hs
  | succ n ih =>
    intro steps tu srcs res h hs
    rw [runReactLoopAux] at h
    obtain ⟨hskip, hrec, hfin⟩ :=
      iter_vs_spec hwf (llm (maxSteps - n)) (maxSteps - n) tu srcs
    cases hit : react_iteration tools (llm (maxSteps - n)) (maxSteps - n) tu srcs with
    | llmFail msg =>
      rw [hit] at h
      cases h
      exact Bool.noConfusion hs
    | crash msg =>
      rw [hit] at h
      exact Except.noConfusion h
    | skip =>
      rw [hit] at h
      have hst : spec_trace tools llm maxSteps (n + 1) =
          spec_trace tools llm maxSteps n := by
        rw [spec_trace, hskip hit]
      rw [hst]
      exact ih steps tu srcs res h hs
    | record step tu' srcs' =>
      rw [hit] at h
      rcases hrec step tu' srcs' hit with ⟨hpass, rfl, rfl⟩ |
        ⟨id, us, hcontrib, rfl, rfl⟩
      · have hst : spec_trace tools llm maxSteps (n + 1) =
            spec_trace tools llm maxSteps n := by
          rw [spec_trace, hpass]
        rw [hst]
        exact ih _ _ _ res h hs
      · have hst : spec_trace tools llm maxSteps (n + 1) =
            (id :: (spec_trace tools llm maxSteps n).1,
             us ++ (spec_trace tools llm maxSteps n).2) := by
          rw [spec_trace, hcontrib]
        obtain ⟨h1, h2⟩ := ih _ _ _ res h hs
        rw [hst]
        constructor
        · rw [h1, List.append_assoc]
          rfl
        · rw [h2, List.map_append, List.append_assoc]
    | finalize step ans =>
      rw [hit] at h
      cases h
      have hst : spec_trace tools llm maxSteps (n + 1) = ([], []) := by
        rw [spec_trace, hfin step ans hit]
      rw [hst]
      constructor
      · ext a
        simp [List.mem_dedup]
      · simp

/-- C9: for every successful loop run over well-formed tool behaviours,
the returned capability-usage collection equals — as a set, deduplicated
only when the result is built — the distinct capability identifiers the
spec-side trace records (ticker extraction as `ticker_extractor:method`),
and the returned source list equals the concatenation, in encounter order
and without deduplication, of every article URL returned by every
successful news-retrieval step. -/
theorem c9_usage_and_sources (tools : Registry)
    (llm : Nat → Except String String) (maxSteps : Nat)
    (hwf : WellFormedTools tools) :
    ∀ res, run_react_loop tools llm maxSteps = .ok res → res.success = true →
      res.tools_used.toFinset =
        (spec_trace tools llm maxSteps maxSteps).1.toFinset ∧
      res.sources = ((spec_trace tools llm maxSteps maxSteps).2).map Json.str := by
  intro res h hs
  have htr := runReactLoopAux_trace hwf maxSteps [] [] [] res h hs
  simpa using htr

/-- The scenario registry returns well-formed payloads. -/
theorem c9Tools_wf : WellFormedTools c9Tools := by
  constructor
  · intro beh hbeh input r h _
    rw [show lookupTool c9Tools "ticker_extractor" = some c9tickerBeh from rfl]
      at hbeh
    injection hbeh with hb
    subst hb
    have hr : ({ success := true, data := c9tickerData } : ToolResult) = r := by
      simpa [c9tickerBeh] using h
    subst hr
    exact ⟨_, "regex", rfl, rfl⟩
  · intro beh hbeh input r h _
    rw [show lookupTool c9Tools "news_retriever" = some c9newsBeh from rfl]
      at hbeh
    injection hbeh with hb
    subst hb
    have hr : ({ success := true, data := c9newsData } : ToolResult) = r := by
      simpa [c9newsBeh] using h
    subst hr
    refine ⟨_, _, rfl, rfl, ?_⟩
    intro a ha
    simp only [List.mem_cons, List.not_mem_nil, or_false] at ha
    rcases ha with rfl | rfl | rfl
    · exact ⟨_, "u1", rfl, rfl, by simp⟩
    · exact ⟨_, "u2", rfl, rfl, by simp⟩
    · exact ⟨_, "u1", rfl, rfl, by simp⟩

/-- Witness for C9: the four-step TSLA scenario (financial data twice,
news with a duplicated URL, ticker extraction, final answer). -/
theorem c9_usage_and_sources_witness :
    ∃ res, run_react_loop c9Tools c9llm 6 = .ok res ∧
      res.tools_used.toFinset = (spec_trace c9Tools c9llm 6 6).1.toFinset ∧
      res.sources = ((spec_trace c9Tools c9llm 6 6).2).map Json.str :=
  ⟨_, rfl, c9_usage_and_sources c9Tools c9llm 6 c9Tools_wf _ rfl rfl⟩

/-- Witness for C8: adding two hashes (one fresh) to a concrete store
yields the union, a superset of the prior seen set. -/
theorem c8_seen_set_monotone_witness :
    get_monitor (add_seen_articles c8store "NVDA" ["h2", "h3"]) "NVDA" =
      some { ticker := "NVDA", interval_hours := 12,
             seen_article_hashes := (["h1", "h2"] ++ ["h2", "h3"]).dedup,
             is_active := true } ∧
    ((["h1", "h2"] ++ ["h2", "h3"]).dedup).toFinset =
      (["h1", "h2"] : List String).toFinset ∪ (["h2", "h3"] : List String).toFinset :=
  c8_seen_set_monotone.1 c8store "NVDA" ["h2", "h3"]
    { ticker := "NVDA", interval_hours := 12,
      seen_article_hashes := ["h1", "h2"], is_active := true } rfl

end Aira
